import Mathlib

/-!
Verification of the reliable chunked-file-transfer core implemented in
`src/frontend/src/components/FileTransferForm.tsx`.

The embedding is byte-level and purely functional:
* JS `ArrayBuffer` / `Uint8Array` values are `List Nat` (each element a byte).
* JS strings are `List Nat` of Unicode code points; `TextEncoder`/`TextDecoder`
  are modelled by an explicit UTF-8 codec.
* Functions that can raise a JS `RangeError` (out-of-bounds `DataView` or
  `Uint8Array` access) return `Option`, with `none` standing for the thrown
  exception.
* The JS `Map` objects are association lists in insertion order, matching
  `Map` iteration semantics.
* `Date.now()` timestamps are passed in explicitly as `Int` parameters.
-/

set_option maxRecDepth 4000

namespace FileTransfer

/-- `CHUNK_SIZE` from FileTransferForm.tsx (131072 bytes). -/
def CHUNK_SIZE : Nat := 131072

/-- `MAX_BUFFER_SIZE` from FileTransferForm.tsx. -/
def MAX_BUFFER_SIZE : Nat := 524288

/-- `INITIAL_WINDOW_SIZE` from FileTransferForm.tsx. -/
def INITIAL_WINDOW_SIZE : Int := 64

/-- `CHUNK_TIMEOUT` from FileTransferForm.tsx (milliseconds). -/
def CHUNK_TIMEOUT : Int := 5000

/-- `MAX_WINDOW_SIZE` from FileTransferForm.tsx. -/
def MAX_WINDOW_SIZE : Int := 128

/-- `MIN_WINDOW_SIZE` from FileTransferForm.tsx. -/
def MIN_WINDOW_SIZE : Int := 16

/-- `HEADER_SIZE` from FileTransferForm.tsx. -/
def HEADER_SIZE : Nat := 256

/-- `MAX_FILENAME_LENGTH` from FileTransferForm.tsx. -/
def MAX_FILENAME_LENGTH : Nat := 201

/-- Little-endian bytes of a 16-bit value, as written by `DataView.setUint16`
(the stored value is reduced mod 2^16 by the byte extraction itself). -/
def u16le (n : Nat) : List Nat := [n % 256, n / 256 % 256]

/-- Little-endian bytes of a 32-bit value, as written by `DataView.setUint32`. -/
def u32le (n : Nat) : List Nat :=
  [n % 256, n / 256 % 256, n / 65536 % 256, n / 16777216 % 256]

/-- Little-endian bytes of a 64-bit value, as written by
`DataView.setBigUint64` (which stores the argument mod 2^64). -/
def u64le (n : Nat) : List Nat :=
  u32le (n % 4294967296) ++ u32le (n / 4294967296 % 4294967296)

/-- Value of a little-endian byte sequence, as read back by the
`DataView.getUint16/getUint32/getBigUint64` family. -/
def leVal (bs : List Nat) : Nat := bs.foldr (fun b acc => b + 256 * acc) 0

/-- Overwrite `bs.length` bytes of `buf` starting at `off`; `none` models the
`RangeError` a `DataView.setUint8` raises when any write lands out of bounds
(the partially written local buffer is then discarded by the exception). -/
def writeBytes (buf : List Nat) (off : Nat) (bs : List Nat) : Option (List Nat) :=
  if off + bs.length ≤ buf.length then
    some (buf.take off ++ bs ++ buf.drop (off + bs.length))
  else none

/-- Read `len` bytes of `data` at offset `off`; `none` models the `RangeError`
raised by constructing an out-of-bounds `Uint8Array`/`DataView` view. -/
def readBytes (data : List Nat) (off len : Nat) : Option (List Nat) :=
  if off + len ≤ data.length then some ((data.drop off).take len) else none

/-- `String.prototype.padEnd(n, c)` on a code-point sequence. -/
def padEndChar (s : List Nat) (n : Nat) (c : Nat) : List Nat :=
  s ++ List.replicate (n - s.length) c

/-- UTF-8 bytes of one code point (`TextEncoder` behaviour on scalar values). -/
def utf8EncodeChar (c : Nat) : List Nat :=
  if c < 128 then [c]
  else if c < 2048 then [192 + c / 64, 128 + c % 64]
  else if c < 65536 then [224 + c / 4096, 128 + c / 64 % 64, 128 + c % 64]
  else [240 + c / 262144, 128 + c / 4096 % 64, 128 + c / 64 % 64, 128 + c % 64]

/-- `new TextEncoder().encode(s)`. -/
def utf8EncodeStr (s : List Nat) : List Nat := (s.map utf8EncodeChar).flatten

/-- `new TextDecoder().decode(bytes)`: UTF-8 decoding with U+FFFD (65533) for
invalid sequences, fuel-indexed so that it is structurally recursive. -/
def utf8DecodeGo : Nat → List Nat → List Nat
  | 0, _ => []
  | _, [] => []
  | fuel + 1, b :: rest =>
    if b < 128 then b :: utf8DecodeGo fuel rest
    else if b < 194 then 65533 :: utf8DecodeGo fuel rest
    else if b < 224 then
      match rest with
      | b2 :: rest2 =>
        if 128 ≤ b2 ∧ b2 < 192 then
          ((b - 192) * 64 + (b2 - 128)) :: utf8DecodeGo fuel rest2
        else 65533 :: utf8DecodeGo fuel rest
      | [] => [65533]
    else if b < 240 then
      match rest with
      | b2 :: b3 :: rest2 =>
        if ((if b = 224 then 160 ≤ b2 ∧ b2 < 192
             else if b = 237 then 128 ≤ b2 ∧ b2 < 160
             else 128 ≤ b2 ∧ b2 < 192) ∧ 128 ≤ b3 ∧ b3 < 192) then
          ((b - 224) * 4096 + (b2 - 128) * 64 + (b3 - 128)) :: utf8DecodeGo fuel rest2
        else 65533 :: utf8DecodeGo fuel rest
      | _ => [65533]
    else if b < 245 then
      match rest with
      | b2 :: b3 :: b4 :: rest2 =>
        if ((if b = 240 then 144 ≤ b2 ∧ b2 < 192
             else if b = 244 then 128 ≤ b2 ∧ b2 < 144
             else 128 ≤ b2 ∧ b2 < 192) ∧ (128 ≤ b3 ∧ b3 < 192) ∧ (128 ≤ b4 ∧ b4 < 192)) then
          ((b - 240) * 262144 + (b2 - 128) * 4096 + (b3 - 128) * 64 + (b4 - 128)) ::
            utf8DecodeGo fuel rest2
        else 65533 :: utf8DecodeGo fuel rest
      | _ => [65533]
    else 65533 :: utf8DecodeGo fuel rest

/-- `new TextDecoder().decode(bytes)` on a byte list. -/
def utf8Decode (l : List Nat) : List Nat := utf8DecodeGo l.length l

/-- The `BinaryMessage` record of FileTransferForm.tsx: a type tag plus the
optional fields (`undefined` is `none`).  `MESSAGE_TYPES`: FILE_START = 0,
FILE_CHUNK = 1, CHUNK_ACK = 2, FILE_COMPLETE = 3. -/
structure BinaryMessage where
  type : Nat
  fileId : List Nat
  chunkIndex : Option Nat := none
  totalChunks : Option Nat := none
  fileSize : Option Nat := none
  fileName : Option (List Nat) := none
  payload : Option (List Nat) := none
  fileHash : Option (List Nat) := none
deriving Repr, DecidableEq

/-- `encodeBinaryMessage` from FileTransferForm.tsx, write for write:
a 256-byte header is zero-initialised, the type tag, the fileId padded to 36
characters, the conditional numeric fields, the fileName length and bytes and
(when present) the fileHash are written at their fixed offsets, and the
payload, when the field is present (even an empty `ArrayBuffer` is truthy),
is appended after the header.  `none` models the `RangeError` thrown when a
write lands beyond offset 255 (as every fileHash write does, at offset 256). -/
def encodeBinaryMessage (m : BinaryMessage) : Option (List Nat) :=
  let fileIdBytes := utf8EncodeStr (padEndChar m.fileId 36 0)
  let fileNameStr := m.fileName.getD []
  let fileNameBytes := utf8EncodeStr (fileNameStr.take MAX_FILENAME_LENGTH)
  let fileNameLength := min fileNameBytes.length MAX_FILENAME_LENGTH
  let fileHashBytes := utf8EncodeStr (padEndChar (m.fileHash.getD []) 64 0)
  (writeBytes (List.replicate HEADER_SIZE 0) 0 [m.type % 256]).bind fun h1 =>
  (writeBytes h1 1 fileIdBytes).bind fun h2 =>
  (match m.chunkIndex with
   | some ci => writeBytes h2 37 (u32le ci)
   | none => some h2).bind fun h3 =>
  (match m.totalChunks with
   | some tc => writeBytes h3 41 (u32le tc)
   | none => some h3).bind fun h4 =>
  (match m.fileSize with
   | some fs => writeBytes h4 45 (u64le fs)
   | none => some h4).bind fun h5 =>
  (match m.fileName with
   | some _ => writeBytes h5 53 (u16le fileNameLength)
   | none => some h5).bind fun h6 =>
  (writeBytes h6 55 fileNameBytes).bind fun h7 =>
  (match m.fileHash with
   | some _ => writeBytes h7 256 fileHashBytes
   | none => some h7).bind fun h8 =>
  match m.payload with
  | some p => some (h8 ++ p)
  | none => some h8

/-- `decodeBinaryMessage` from FileTransferForm.tsx, read for read: the type
tag at 0, the 36 fileId bytes at 1 (NUL-stripped after decoding), and then,
keyed on the tag exactly as in the source, `chunkIndex` at 37 (types 1, 2),
`totalChunks`/`fileSize`/`fileName` at 41/45/53+55 (types 0, 1), the 64
fileHash bytes at 256 (type 3), and the payload as everything after the
256-byte header (type 1).  `none` models a thrown `RangeError`; an
unrecognised tag is not rejected. -/
def decodeBinaryMessage (data : List Nat) : Option BinaryMessage :=
  (readBytes data 0 1).bind fun tb =>
  let t := tb.headD 0
  (readBytes data 1 36).bind fun idb =>
  let m0 : BinaryMessage := { type := t, fileId := (utf8Decode idb).filter (fun c => c ≠ 0) }
  (if t = 1 ∨ t = 2 then
      (readBytes data 37 4).bind fun cib =>
      some { m0 with chunkIndex := some (leVal cib) }
    else some m0).bind fun m1 =>
  (if t = 0 ∨ t = 1 then
      (readBytes data 41 4).bind fun tcb =>
      (readBytes data 45 8).bind fun fsb =>
      (readBytes data 53 2).bind fun fnlb =>
      (readBytes data 55 (min (leVal fnlb) MAX_FILENAME_LENGTH)).bind fun fnb =>
      some { m1 with totalChunks := some (leVal tcb), fileSize := some (leVal fsb),
                     fileName := some (utf8Decode fnb) }
    else some m1).bind fun m2 =>
  (if t = 3 then
      (readBytes data 256 64).bind fun hb =>
      some { m2 with fileHash := some ((utf8Decode hb).filter (fun c => c ≠ 0)) }
    else some m2).bind fun m3 =>
  if t = 1 ∧ HEADER_SIZE < data.length then
    some { m3 with payload := some (data.drop HEADER_SIZE) }
  else
    some m3

example : utf8Decode [65, 0, 66] = [65, 0, 66] := by decide
example : utf8EncodeStr [256] = [196, 128] := by decide
example : decodeBinaryMessage [] = none := by decide
-- sanity: round trip of a ChunkAck
example :
    (encodeBinaryMessage { type := 2, fileId := [102, 49], chunkIndex := some 7 }).bind
      decodeBinaryMessage
      = some { type := 2, fileId := [102, 49], chunkIndex := some 7 } := by decide
-- sanity: a FileComplete header cannot be decoded (hash read past the header)
example :
    (encodeBinaryMessage { type := 3, fileId := [102], fileName := some [97] }).bind
      decodeBinaryMessage = none := by decide
-- sanity: encoding any message with a fileHash throws
example : encodeBinaryMessage { type := 3, fileId := [102], fileHash := some [] } = none := by
  decide
-- sanity: a zero-length payload is lost in the round trip
def emptyPayloadChunk : BinaryMessage :=
  { type := 1
    fileId := [102]
    chunkIndex := some 0
    totalChunks := some 1
    fileSize := some 0
    fileName := some [97]
    payload := some [] }

example :
    (encodeBinaryMessage emptyPayloadChunk).bind decodeBinaryMessage
      = some { emptyPayloadChunk with payload := none } := by decide

/-! ## JS `Map` model: association lists in insertion order -/

/-- `Map.prototype.get` (`none` = `undefined`). -/
def mapGet {κ α : Type} [DecidableEq κ] (l : List (κ × α)) (k : κ) : Option α :=
  (l.find? fun p => decide (p.1 = k)).map Prod.snd

/-- `Map.prototype.has`. -/
def mapHas {κ α : Type} [DecidableEq κ] (l : List (κ × α)) (k : κ) : Bool :=
  l.any fun p => decide (p.1 = k)

/-- `Map.prototype.set`: replaces the value of an existing key in place,
otherwise appends the new entry (insertion order semantics). -/
def mapSet {κ α : Type} [DecidableEq κ] (l : List (κ × α)) (k : κ) (v : α) :
    List (κ × α) :=
  if mapHas l k then l.map fun p => if p.1 = k then (k, v) else p
  else l ++ [(k, v)]

/-- `Map.prototype.delete` (result map only). -/
def mapDelete {κ α : Type} [DecidableEq κ] (l : List (κ × α)) (k : κ) :
    List (κ × α) :=
  l.filter fun p => decide (p.1 ≠ k)

/-! ## Receiver engine -/

/-- The `FileReceiveBuffer` record of FileTransferForm.tsx. -/
structure FileReceiveBuffer where
  fileName : List Nat
  fileSize : Nat
  totalChunks : Nat
  receivedChunks : List (Nat × List Nat)
  receivedCount : Nat
  lastReceivedTime : Int
deriving Repr, DecidableEq

/-- The receiver state: the `fileReceiveBuffers` map, keyed by `fileId`. -/
abbrev ReceiverBuffers : Type := List (List Nat × FileReceiveBuffer)

/-- `handleFileStart` from FileTransferForm.tsx: returns early when
`fileName` is falsy (absent or empty) or `fileSize`/`totalChunks` are absent;
otherwise it sets a fresh buffer for `fileId` unconditionally, overwriting
any buffer already present. -/
def handleFileStart (now : Int) (m : BinaryMessage) (bufs : ReceiverBuffers) :
    ReceiverBuffers :=
  match m.fileName, m.fileSize, m.totalChunks with
  | some nm, some fs, some tc =>
    if nm = [] then bufs
    else
      mapSet bufs m.fileId
        { fileName := nm, fileSize := fs, totalChunks := tc,
          receivedChunks := [], receivedCount := 0, lastReceivedTime := now }
  | _, _, _ => bufs

/-- Result of `assembleAndSaveFile`: the saved file, an abort at the first
missing chunk index, the `RangeError` of an out-of-bounds `Uint8Array.set`,
or a missing buffer. -/
inductive AssembleResult where
  | delivered (file : List Nat)
  | missingChunk (i : Nat)
  | rangeError
  | noBuffer
deriving Repr, DecidableEq

/-- `Uint8Array.prototype.set(src, off)` on an in-bounds write. -/
def writeList (target : List Nat) (off : Nat) (src : List Nat) : List Nat :=
  target.take off ++ src ++ target.drop (off + src.length)

/-- The `for` loop of `assembleAndSaveFile`, iterating chunk indices `i` with
`total - i` iterations left as fuel: looks up chunk `i`, aborts with
`missingChunk i` when absent, and otherwise copies it into the output at the
running offset (a copy past the end of the output raises `RangeError`). -/
def assembleGo (chunks : List (Nat × List Nat)) :
    Nat → Nat → List Nat → Nat → AssembleResult
  | 0, _, file, _ => .delivered file
  | rem + 1, i, file, off =>
    match mapGet chunks i with
    | none => .missingChunk i
    | some c =>
      if off + c.length ≤ file.length then
        assembleGo chunks rem (i + 1) (writeList file off c) (off + c.length)
      else .rangeError

/-- `assembleAndSaveFile` from FileTransferForm.tsx: with no buffer for
`fileId` it returns silently; a missing chunk aborts with an error status and
leaves the buffers map untouched (the early `return` precedes the `delete`);
only the successful path deletes the buffer after saving the assembled
`Uint8Array(buffer.fileSize)`. -/
def assembleAndSaveFile (fileId : List Nat) (bufs : ReceiverBuffers) :
    ReceiverBuffers × AssembleResult :=
  match mapGet bufs fileId with
  | none => (bufs, .noBuffer)
  | some b =>
    match assembleGo b.receivedChunks b.totalChunks 0 (List.replicate b.fileSize 0) 0 with
    | .delivered f => (mapDelete bufs fileId, .delivered f)
    | r => (bufs, r)

/-- `handleFileChunk` from FileTransferForm.tsx.  Returns the new buffers
map, whether a `ChunkAck` was sent, and the assembly outcome when assembly
was triggered.  Guard as in the source: `fileName` falsy (absent or empty)
or `chunkIndex`/`totalChunks`/`fileSize`/`payload` absent returns early (an
empty payload `ArrayBuffer` is truthy and passes).  A buffer is created
lazily from the chunk metadata when absent; a duplicate `chunkIndex` changes
nothing; otherwise the payload is stored, `receivedCount` incremented,
`lastReceivedTime` updated, an ack sent, and assembly runs when
`receivedCount` reaches the message's `totalChunks`. -/
def handleFileChunk (now : Int) (m : BinaryMessage) (bufs : ReceiverBuffers) :
    ReceiverBuffers × Bool × Option AssembleResult :=
  match m.fileName, m.chunkIndex, m.totalChunks, m.fileSize, m.payload with
  | some nm, some ci, some tc, some fs, some p =>
    if nm = [] then (bufs, false, none)
    else
      let buffer := (mapGet bufs m.fileId).getD
        { fileName := nm, fileSize := fs, totalChunks := tc,
          receivedChunks := [], receivedCount := 0, lastReceivedTime := now }
      let bufs1 := if mapHas bufs m.fileId then bufs else mapSet bufs m.fileId buffer
      if mapHas buffer.receivedChunks ci then (bufs1, false, none)
      else
        let buffer' : FileReceiveBuffer :=
          { buffer with receivedChunks := mapSet buffer.receivedChunks ci p,
                        receivedCount := buffer.receivedCount + 1,
                        lastReceivedTime := now }
        let bufs2 := mapSet bufs1 m.fileId buffer'
        if buffer'.receivedCount = tc then
          let out := assembleAndSaveFile m.fileId bufs2
          (out.1, true, some out.2)
        else (bufs2, true, none)
  | _, _, _, _, _ => (bufs, false, none)

/-! ## Sender engine -/

/-- The `FileChunk` record of FileTransferForm.tsx (sender side). -/
structure FileChunkRec where
  fileName : List Nat
  fileId : List Nat
  chunkIndex : Nat
  totalChunks : Nat
  data : List Nat
  fileSize : Nat
deriving Repr, DecidableEq

/-- A `pendingChunksRef` entry: `{chunk, timestamp, retries}`. -/
structure PendingEntry where
  chunk : FileChunkRec
  timestamp : Int
  retries : Nat
deriving Repr, DecidableEq

/-- The sender-side mutable refs of FileTransferForm.tsx that the ack and
timeout handlers touch. -/
structure SenderState where
  sendQueue : List FileChunkRec
  pendingChunks : List (Nat × PendingEntry)
  currentFileId : Option (List Nat)
  isSending : Bool
  windowSize : Int
  lastAckTime : Int
deriving Repr, DecidableEq

/-- `handleChunkAck` from FileTransferForm.tsx.  The Bool records whether
`processSendQueue` was invoked.  Returns unchanged when `chunkIndex` is
absent or the ack's `fileId` differs from the current outbound transfer;
otherwise deletes the pending entry, computes the inter-ack `rtt`, updates
`lastAckTime`, grows the window by 8 (capped at `MAX_WINDOW_SIZE`) when
`rtt < 50`, shrinks it by 4 (floored at `MIN_WINDOW_SIZE`) when `rtt > 200`,
and pumps when sending. -/
def handleChunkAck (now : Int) (m : BinaryMessage) (s : SenderState) :
    SenderState × Bool :=
  match m.chunkIndex with
  | none => (s, false)
  | some ci =>
    if s.currentFileId ≠ some m.fileId then (s, false)
    else
      let pending := mapDelete s.pendingChunks ci
      let rtt := now - s.lastAckTime
      let w :=
        if rtt < 50 then min (s.windowSize + 8) MAX_WINDOW_SIZE
        else if rtt > 200 then max (s.windowSize - 4) MIN_WINDOW_SIZE
        else s.windowSize
      ({ s with pendingChunks := pending, lastAckTime := now, windowSize := w },
       s.isSending)

/-- The per-entry action of the `forEach` in `checkForTimeouts`: a chunk past
`CHUNK_TIMEOUT` with fewer than 3 retries is refreshed (timestamp reset,
retries incremented); a chunk with 3 or more retries is deleted; anything
else is untouched. -/
def timeoutUpdate (now : Int) (e : Nat × PendingEntry) : Option (Nat × PendingEntry) :=
  if now - e.2.timestamp > CHUNK_TIMEOUT ∧ e.2.retries < 3 then
    some (e.1, { e.2 with timestamp := now, retries := e.2.retries + 1 })
  else if e.2.retries ≥ 3 then none
  else some e

/-- `checkForTimeouts` from FileTransferForm.tsx: no-op unless sending;
collects the chunks that timed out with retries < 3, applies
`timeoutUpdate` to every pending entry, and, when at least one chunk timed
out, shrinks the window by 1 (floored at `MIN_WINDOW_SIZE`) and requeues the
timed-out chunks at the front of the send queue. -/
def checkForTimeouts (now : Int) (s : SenderState) : SenderState :=
  if s.isSending = false then s
  else
    let timedOut := (s.pendingChunks.filter fun e =>
      decide (now - e.2.timestamp > CHUNK_TIMEOUT ∧ e.2.retries < 3)).map fun e => e.2.chunk
    let pending := s.pendingChunks.filterMap (timeoutUpdate now)
    if timedOut.length > 0 then
      { s with pendingChunks := pending,
               windowSize := max (s.windowSize - 1) MIN_WINDOW_SIZE,
               sendQueue := timedOut ++ s.sendQueue }
    else { s with pendingChunks := pending }

/-- The asynchronous triggers that mutate the sender's window: an incoming
`ChunkAck` and a tick of the timeout watchdog. -/
inductive SenderEvent where
  | ack (now : Int) (m : BinaryMessage)
  | timeoutScan (now : Int)
deriving Repr

/-- One sender transition. -/
def senderStep (s : SenderState) : SenderEvent → SenderState
  | .ack now m => (handleChunkAck now m s).1
  | .timeoutScan now => checkForTimeouts now s

/-! ## Sender-side file slicing -/

/-- The chunk-slicing loop of `sendFileInChunks`:
`totalChunks = Math.ceil(file.size / CHUNK_SIZE)` (exact for sizes below
2^53 since division by the power of two 131072 is exact in doubles), and
chunk `i` is `file.slice(i * CHUNK_SIZE, min((i+1) * CHUNK_SIZE, file.size))`. -/
def sliceFile (fileName fileId : List Nat) (file : List Nat) : List FileChunkRec :=
  let totalChunks := (file.length + CHUNK_SIZE - 1) / CHUNK_SIZE
  (List.range totalChunks).map fun chunkIndex =>
    let start := chunkIndex * CHUNK_SIZE
    let fin := min (start + CHUNK_SIZE) file.length
    { fileName := fileName, fileId := fileId, chunkIndex := chunkIndex,
      totalChunks := totalChunks, data := (file.drop start).take (fin - start),
      fileSize := file.length }

/-! ## Association-list lemmas -/

theorem mapGet_cons {κ α : Type} [DecidableEq κ] (k' : κ) (v : α)
    (l : List (κ × α)) (k : κ) :
    mapGet ((k', v) :: l) k = if k' = k then some v else mapGet l k := by
  by_cases h : k' = k <;> simp [mapGet, List.find?_cons, h]

theorem mapHas_cons {κ α : Type} [DecidableEq κ] (k' : κ) (v : α)
    (l : List (κ × α)) (k : κ) :
    mapHas ((k', v) :: l) k = (decide (k' = k) || mapHas l k) := by
  by_cases h : k' = k <;> simp [mapHas, h]

theorem mapHas_eq_false_iff {κ α : Type} [DecidableEq κ] (l : List (κ × α)) (k : κ) :
    mapHas l k = false ↔ ∀ e ∈ l, e.1 ≠ k := by
  simp [mapHas]

theorem mapGet_eq_none_of_not_has {κ α : Type} [DecidableEq κ]
    (l : List (κ × α)) (k : κ) (h : ∀ e ∈ l, e.1 ≠ k) :
    mapGet l k = none := by
  induction l with
  | nil => rfl
  | cons e t ih =>
    obtain ⟨k', v⟩ := e
    rw [mapGet_cons]
    have hk : k' ≠ k := h (k', v) (by simp)
    simp only [hk, if_false]
    exact ih fun e he => h e (by simp [he])

theorem mapGet_mem {κ α : Type} [DecidableEq κ] {l : List (κ × α)} {k : κ} {v : α}
    (h : mapGet l k = some v) : (k, v) ∈ l := by
  induction l with
  | nil => simp [mapGet] at h
  | cons e t ih =>
    obtain ⟨k', v'⟩ := e
    rw [mapGet_cons] at h
    by_cases hk : k' = k
    · subst hk
      rw [if_pos rfl] at h
      cases h
      simp
    · rw [if_neg hk] at h
      exact List.mem_cons_of_mem _ (ih h)

theorem mem_mapSet {κ α : Type} [DecidableEq κ] {l : List (κ × α)} {k : κ} {v : α}
    {e : κ × α} (h : e ∈ mapSet l k v) : e ∈ l ∨ e = (k, v) := by
  unfold mapSet at h
  by_cases hh : mapHas l k = true
  · rw [if_pos hh] at h
    obtain ⟨e', he', heq⟩ := List.mem_map.mp h
    by_cases hk : e'.1 = k
    · rw [if_pos hk] at heq
      exact Or.inr heq.symm
    · rw [if_neg hk] at heq
      exact Or.inl (heq ▸ he')
  · rw [if_neg hh] at h
    simpa using h

theorem mapGet_mapOver_self {κ α : Type} [DecidableEq κ] (l : List (κ × α))
    (k : κ) (v : α) (hh : mapHas l k = true) :
    mapGet (l.map fun p => if p.1 = k then (k, v) else p) k = some v := by
  induction l with
  | nil => simp [mapHas] at hh
  | cons e t ih =>
    obtain ⟨k', v'⟩ := e
    rw [List.map_cons]
    by_cases hk : k' = k
    · have : (if (k', v').1 = k then (k, v) else (k', v')) = (k, v) := if_pos hk
      rw [this, mapGet_cons, if_pos rfl]
    · have : (if (k', v').1 = k then (k, v) else (k', v')) = (k', v') := if_neg hk
      rw [this, mapGet_cons, if_neg hk]
      rw [mapHas_cons] at hh
      simp only [hk, decide_eq_true_eq, false_or] at hh
      exact ih hh

theorem mapGet_append_self {κ α : Type} [DecidableEq κ] (l : List (κ × α))
    (k : κ) (v : α) (hnone : mapGet l k = none) :
    mapGet (l ++ [(k, v)]) k = some v := by
  induction l with
  | nil => simp [mapGet_cons, mapGet]
  | cons e t ih =>
    obtain ⟨k', v'⟩ := e
    rw [mapGet_cons] at hnone
    rw [List.cons_append, mapGet_cons]
    by_cases hk : k' = k
    · rw [if_pos hk] at hnone
      cases hnone
    · rw [if_neg hk] at hnone ⊢
      exact ih hnone

theorem mapGet_mapSet_self {κ α : Type} [DecidableEq κ] (l : List (κ × α))
    (k : κ) (v : α) : mapGet (mapSet l k v) k = some v := by
  unfold mapSet
  by_cases hh : mapHas l k = true
  · rw [if_pos hh]
    exact mapGet_mapOver_self l k v hh
  · rw [if_neg hh]
    exact mapGet_append_self l k v
      (mapGet_eq_none_of_not_has l k
        ((mapHas_eq_false_iff l k).mp (Bool.not_eq_true _ ▸ hh)))

theorem mapGet_mapOver_ne {κ α : Type} [DecidableEq κ] (l : List (κ × α))
    (k k' : κ) (v : α) (h : k' ≠ k) :
    mapGet (l.map fun p => if p.1 = k then (k, v) else p) k' = mapGet l k' := by
  induction l with
  | nil => rfl
  | cons e t ih =>
    obtain ⟨k₁, v₁⟩ := e
    rw [List.map_cons]
    by_cases hk : k₁ = k
    · have : (if (k₁, v₁).1 = k then (k, v) else (k₁, v₁)) = (k, v) := if_pos hk
      rw [this, mapGet_cons, mapGet_cons]
      have h1 : ¬ (k = k') := fun hc => h hc.symm
      have h2 : ¬ (k₁ = k') := fun hc => h (hc ▸ hk)
      rw [if_neg h1, if_neg h2]
      exact ih
    · have : (if (k₁, v₁).1 = k then (k, v) else (k₁, v₁)) = (k₁, v₁) := if_neg hk
      rw [this, mapGet_cons, mapGet_cons]
      by_cases hk' : k₁ = k'
      · rw [if_pos hk', if_pos hk']
      · rw [if_neg hk', if_neg hk']
        exact ih

theorem mapGet_append_ne {κ α : Type} [DecidableEq κ] (l : List (κ × α))
    (k k' : κ) (v : α) (h : k' ≠ k) :
    mapGet (l ++ [(k, v)]) k' = mapGet l k' := by
  induction l with
  | nil =>
    rw [List.nil_append, mapGet_cons]
    have : ¬ (k = k') := fun hc => h hc.symm
    rw [if_neg this]
  | cons e t ih =>
    obtain ⟨k₁, v₁⟩ := e
    rw [List.cons_append, mapGet_cons, mapGet_cons]
    by_cases hk' : k₁ = k'
    · rw [if_pos hk', if_pos hk']
    · rw [if_neg hk', if_neg hk']
      exact ih

theorem mapGet_mapSet_ne {κ α : Type} [DecidableEq κ] (l : List (κ × α))
    (k k' : κ) (v : α) (h : k' ≠ k) :
    mapGet (mapSet l k v) k' = mapGet l k' := by
  unfold mapSet
  by_cases hh : mapHas l k = true
  · rw [if_pos hh]
    exact mapGet_mapOver_ne l k k' v h
  · rw [if_neg hh]
    exact mapGet_append_ne l k k' v h

theorem mem_mapDelete {κ α : Type} [DecidableEq κ] {l : List (κ × α)} {k : κ}
    {e : κ × α} (h : e ∈ mapDelete l k) : e ∈ l :=
  (List.mem_filter.mp h).1

theorem mapGet_filterMap_keyed {α : Type} (f : Nat × α → Option (Nat × α))
    (hf : ∀ k a q, f (k, a) = some q → q.1 = k) (l : List (Nat × α))
    (hnd : (l.map Prod.fst).Nodup) (k : Nat) :
    mapGet (l.filterMap f) k = (mapGet l k).bind fun a => (f (k, a)).map Prod.snd := by
  induction l with
  | nil => rfl
  | cons e t ih =>
    obtain ⟨k₁, a₁⟩ := e
    rw [List.map_cons, List.nodup_cons] at hnd
    by_cases hk : k₁ = k
    · subst hk
      cases hfa : f (k₁, a₁) with
      | none =>
        simp [List.filterMap_cons, hfa, mapGet_cons]
        apply mapGet_eq_none_of_not_has
        intro e he
        obtain ⟨e', he', hfe⟩ := List.mem_filterMap.mp he
        obtain ⟨ke, ae⟩ := e'
        have : e.1 = ke := hf ke ae e hfe
        rw [this]
        intro hc
        have hmem : ke ∈ List.map Prod.fst t := List.mem_map_of_mem Prod.fst he'
        rw [hc] at hmem
        exact hnd.1 hmem
      | some q =>
        obtain ⟨qk, qa⟩ := q
        have hq : qk = k₁ := hf _ _ _ hfa
        subst hq
        simp [List.filterMap_cons, hfa, mapGet_cons]
    · cases hfa : f (k₁, a₁) with
      | none =>
        simp only [List.filterMap_cons, hfa, mapGet_cons, if_neg hk]
        exact ih hnd.2
      | some q =>
        obtain ⟨qk, qa⟩ := q
        have hq : qk = k₁ := hf _ _ _ hfa
        subst hq
        simp only [List.filterMap_cons, hfa, mapGet_cons, if_neg hk]
        exact ih hnd.2

/-! ## Sender engine lemmas -/

theorem handleChunkAck_window_bounds (now : Int) (m : BinaryMessage) (s : SenderState)
    (h1 : MIN_WINDOW_SIZE ≤ s.windowSize) (h2 : s.windowSize ≤ MAX_WINDOW_SIZE) :
    MIN_WINDOW_SIZE ≤ (handleChunkAck now m s).1.windowSize ∧
      (handleChunkAck now m s).1.windowSize ≤ MAX_WINDOW_SIZE := by
  unfold handleChunkAck
  cases m.chunkIndex with
  | none => exact ⟨h1, h2⟩
  | some ci =>
    dsimp only
    by_cases hf : s.currentFileId ≠ some m.fileId
    · rw [if_pos hf]
      exact ⟨h1, h2⟩
    · rw [if_neg hf]
      dsimp only
      unfold MIN_WINDOW_SIZE MAX_WINDOW_SIZE at *
      split_ifs <;> constructor <;> omega

theorem checkForTimeouts_window_bounds (now : Int) (s : SenderState)
    (h1 : MIN_WINDOW_SIZE ≤ s.windowSize) (h2 : s.windowSize ≤ MAX_WINDOW_SIZE) :
    MIN_WINDOW_SIZE ≤ (checkForTimeouts now s).windowSize ∧
      (checkForTimeouts now s).windowSize ≤ MAX_WINDOW_SIZE := by
  unfold checkForTimeouts
  by_cases hs : s.isSending = false
  · rw [if_pos hs]
    exact ⟨h1, h2⟩
  · rw [if_neg hs]
    dsimp only
    unfold MIN_WINDOW_SIZE MAX_WINDOW_SIZE at *
    split_ifs <;> dsimp only <;> constructor <;> omega

theorem senderStep_window_bounds (s : SenderState) (e : SenderEvent)
    (h1 : MIN_WINDOW_SIZE ≤ s.windowSize) (h2 : s.windowSize ≤ MAX_WINDOW_SIZE) :
    MIN_WINDOW_SIZE ≤ (senderStep s e).windowSize ∧
      (senderStep s e).windowSize ≤ MAX_WINDOW_SIZE := by
  cases e with
  | ack now m => exact handleChunkAck_window_bounds now m s h1 h2
  | timeoutScan now => exact checkForTimeouts_window_bounds now s h1 h2

theorem foldl_senderStep_window_bounds (evs : List SenderEvent) (s : SenderState)
    (h1 : MIN_WINDOW_SIZE ≤ s.windowSize) (h2 : s.windowSize ≤ MAX_WINDOW_SIZE) :
    MIN_WINDOW_SIZE ≤ (evs.foldl senderStep s).windowSize ∧
      (evs.foldl senderStep s).windowSize ≤ MAX_WINDOW_SIZE := by
  induction evs generalizing s with
  | nil => exact ⟨h1, h2⟩
  | cons e t ih =>
    rw [List.foldl_cons]
    obtain ⟨g1, g2⟩ := senderStep_window_bounds s e h1 h2
    exact ih (senderStep s e) g1 g2

/-- C6: starting from `INITIAL_WINDOW_SIZE`, no sequence of ack events
(arbitrary RTT samples, i.e. arbitrary timestamps and messages) and timeout
scans ever drives the congestion window outside
`[MIN_WINDOW_SIZE, MAX_WINDOW_SIZE]`: every mutation in `handleChunkAck` and
in the `checkForTimeouts` penalty keeps it within bounds. -/
theorem window_never_leaves_bounds (evs : List SenderEvent) (s : SenderState)
    (h : s.windowSize = INITIAL_WINDOW_SIZE) :
    MIN_WINDOW_SIZE ≤ (evs.foldl senderStep s).windowSize ∧
      (evs.foldl senderStep s).windowSize ≤ MAX_WINDOW_SIZE := by
  apply foldl_senderStep_window_bounds <;> rw [h] <;> decide

/-- A concrete sender state for the C6 witness. -/
def cWindowState : SenderState :=
  { sendQueue := []
    pendingChunks := []
    currentFileId := some [102]
    isSending := true
    windowSize := 64
    lastAckTime := 0 }

/-- A concrete event sequence (one ack, one timeout scan) for the C6 witness. -/
def cWindowEvents : List SenderEvent :=
  [SenderEvent.ack 5 { type := 2, fileId := [102], chunkIndex := some 0 },
   SenderEvent.timeoutScan 6000]

/-- Witness for C6 at a concrete state and event sequence. -/
theorem window_never_leaves_bounds_witness :
    cWindowState.windowSize = INITIAL_WINDOW_SIZE ∧
      (MIN_WINDOW_SIZE ≤ (cWindowEvents.foldl senderStep cWindowState).windowSize ∧
        (cWindowEvents.foldl senderStep cWindowState).windowSize ≤ MAX_WINDOW_SIZE) :=
  ⟨by decide, window_never_leaves_bounds cWindowEvents cWindowState (by decide)⟩

/-- C8: `handleChunkAck` on an ack whose `chunkIndex` is absent, or whose
`fileId` is not the current outbound transfer's id, returns without any state
change — pending chunks, window size and last-ack time all unchanged — and
does not invoke the send pump. -/
theorem handleChunkAck_frame (now : Int) (m : BinaryMessage) (s : SenderState)
    (h : m.chunkIndex = none ∨ s.currentFileId ≠ some m.fileId) :
    handleChunkAck now m s = (s, false) := by
  unfold handleChunkAck
  cases hci : m.chunkIndex with
  | none => rfl
  | some ci =>
    dsimp only
    rcases h with h | h
    · rw [hci] at h
      cases h
    · rw [if_pos h]

/-- C7: on a timeout scan while sending (with distinct pending keys, as the
code maintains), every pending chunk older than `CHUNK_TIMEOUT` with fewer
than 3 retries stays pending with its retries incremented and its timestamp
reset to `now` and its chunk is requeued — the requeued chunks forming the
FRONT of the new send queue; every pending chunk with 3 or more retries is
removed from the pending set; when at least one chunk timed out the window
shrinks by 1, floored at `MIN_WINDOW_SIZE`; and the transfer continues
(`isSending` stays true). -/
theorem checkForTimeouts_spec (now : Int) (s : SenderState)
    (hsend : s.isSending = true)
    (hnd : (s.pendingChunks.map Prod.fst).Nodup) :
    (∀ k p, mapGet s.pendingChunks k = some p →
      now - p.timestamp > CHUNK_TIMEOUT → p.retries < 3 →
      mapGet (checkForTimeouts now s).pendingChunks k =
        some { chunk := p.chunk, timestamp := now, retries := p.retries + 1 }) ∧
    (∀ k p, mapGet s.pendingChunks k = some p → p.retries ≥ 3 →
      mapGet (checkForTimeouts now s).pendingChunks k = none) ∧
    (checkForTimeouts now s).sendQueue =
      ((s.pendingChunks.filter fun e =>
        decide (now - e.2.timestamp > CHUNK_TIMEOUT ∧ e.2.retries < 3)).map fun e => e.2.chunk)
        ++ s.sendQueue ∧
    ((∃ e ∈ s.pendingChunks, now - e.2.timestamp > CHUNK_TIMEOUT ∧ e.2.retries < 3) →
      (checkForTimeouts now s).windowSize = max (s.windowSize - 1) MIN_WINDOW_SIZE) ∧
    (checkForTimeouts now s).isSending = true := by
  have hg : ¬ (s.isSending = false) := by rw [hsend]; simp
  have hkey : ∀ (k : Nat) (a : PendingEntry) (q : Nat × PendingEntry),
      timeoutUpdate now (k, a) = some q → q.1 = k := by
    intro k a q hq
    unfold timeoutUpdate at hq
    split_ifs at hq <;> cases hq <;> rfl
  have hpend : (checkForTimeouts now s).pendingChunks =
      s.pendingChunks.filterMap (timeoutUpdate now) := by
    unfold checkForTimeouts
    rw [if_neg hg]
    dsimp only
    split_ifs <;> rfl
  have hcond : (∃ e ∈ s.pendingChunks, now - e.2.timestamp > CHUNK_TIMEOUT ∧ e.2.retries < 3) →
      ((s.pendingChunks.filter fun e =>
        decide (now - e.2.timestamp > CHUNK_TIMEOUT ∧ e.2.retries < 3)).map
          fun e => e.2.chunk).length > 0 := by
    rintro ⟨e, he, hcnd⟩
    have hmem : e ∈ s.pendingChunks.filter fun e =>
        decide (now - e.2.timestamp > CHUNK_TIMEOUT ∧ e.2.retries < 3) :=
      List.mem_filter.mpr ⟨he, by simpa using hcnd⟩
    have hne := List.ne_nil_of_mem hmem
    rw [List.length_map]
    exact List.length_pos.mpr hne
  refine ⟨?_, ?_, ?_, ?_, ?_⟩
  · intro k p hget hto hr
    rw [hpend, mapGet_filterMap_keyed (timeoutUpdate now) hkey s.pendingChunks hnd k, hget]
    rw [Option.some_bind]
    unfold timeoutUpdate
    rw [if_pos ⟨hto, hr⟩]
    rfl
  · intro k p hget hr
    rw [hpend, mapGet_filterMap_keyed (timeoutUpdate now) hkey s.pendingChunks hnd k, hget]
    rw [Option.some_bind]
    unfold timeoutUpdate
    have h1 : ¬ (now - (k, p).2.timestamp > CHUNK_TIMEOUT ∧ (k, p).2.retries < 3) := by
      dsimp only
      omega
    rw [if_neg h1, if_pos (by simpa using hr)]
    rfl
  · unfold checkForTimeouts
    rw [if_neg hg]
    dsimp only
    split_ifs with ht
    · rfl
    · dsimp only
      have hz : ((s.pendingChunks.filter fun e =>
          decide (now - e.2.timestamp > CHUNK_TIMEOUT ∧ e.2.retries < 3)).map
            fun e => e.2.chunk) = [] := by
        have := Nat.eq_zero_of_not_pos ht
        exact List.length_eq_zero.mp this
      rw [hz, List.nil_append]
  · intro hex
    unfold checkForTimeouts
    rw [if_neg hg]
    dsimp only
    rw [if_pos (hcond hex)]
  · unfold checkForTimeouts
    rw [if_neg hg]
    dsimp only
    split_ifs <;> exact hsend

/-- Concrete chunks and state for the C7 witness: pending chunk 0 timed out
with one retry, pending chunk 1 exhausted its retries. -/
def cTimeoutState : SenderState :=
  { sendQueue := []
    pendingChunks :=
      [(0, { chunk := { fileName := [97], fileId := [102], chunkIndex := 0, totalChunks := 2,
                        data := [1], fileSize := 2 }, timestamp := 0, retries := 1 }),
       (1, { chunk := { fileName := [97], fileId := [102], chunkIndex := 1, totalChunks := 2,
                        data := [2], fileSize := 2 }, timestamp := 0, retries := 3 })]
    currentFileId := some [102]
    isSending := true
    windowSize := 64
    lastAckTime := 0 }

/-- Witness for C7: at time 6000 the exhausted chunk 1 is removed. -/
theorem checkForTimeouts_spec_witness :
    cTimeoutState.isSending = true ∧
      (cTimeoutState.pendingChunks.map Prod.fst).Nodup ∧
      mapGet (checkForTimeouts 6000 cTimeoutState).pendingChunks 1 = none :=
  ⟨rfl, by decide,
    (checkForTimeouts_spec 6000 cTimeoutState rfl (by decide)).2.1 1
      { chunk := { fileName := [97], fileId := [102], chunkIndex := 1, totalChunks := 2,
                   data := [2], fileSize := 2 }, timestamp := 0, retries := 3 }
      (by decide) (by decide)⟩

/-- A concrete in-flight chunk for the C8 witness. -/
def cAckChunkRec : FileChunkRec :=
  { fileName := [97]
    fileId := [102]
    chunkIndex := 0
    totalChunks := 1
    data := [1]
    fileSize := 1 }

/-- A concrete sender state with one pending chunk for the C8 witness. -/
def cAckState : SenderState :=
  { sendQueue := []
    pendingChunks := [(0, { chunk := cAckChunkRec, timestamp := 0, retries := 0 })]
    currentFileId := some [102]
    isSending := true
    windowSize := 64
    lastAckTime := 0 }

/-- Witness for C8: an ack for a foreign `fileId` is ignored. -/
theorem handleChunkAck_frame_witness :
    handleChunkAck 9 { type := 2, fileId := [103], chunkIndex := some 0 } cAckState
      = (cAckState, false) :=
  handleChunkAck_frame 9 _ _ (Or.inr (by decide))

/-! ## Receiver engine lemmas -/

/-- C3 amended: on a `FileStart` with valid fields, `handleFileStart`
unconditionally installs a fresh empty buffer for `fileId` — overwriting and
thereby resetting any existing buffer (its received chunks and count are
lost) — while buffers of other fileIds are untouched.  Duplicate starts are
not idempotent. -/
theorem handleFileStart_replaces (now : Int) (m : BinaryMessage)
    (bufs : ReceiverBuffers) (nm : List Nat) (fs tc : Nat)
    (hnm : m.fileName = some nm) (hne : nm ≠ [])
    (hfs : m.fileSize = some fs) (htc : m.totalChunks = some tc) :
    mapGet (handleFileStart now m bufs) m.fileId =
      some { fileName := nm, fileSize := fs, totalChunks := tc,
             receivedChunks := [], receivedCount := 0, lastReceivedTime := now } ∧
    ∀ k, k ≠ m.fileId → mapGet (handleFileStart now m bufs) k = mapGet bufs k := by
  unfold handleFileStart
  rw [hnm, hfs, htc]
  dsimp only
  rw [if_neg hne]
  exact ⟨mapGet_mapSet_self _ _ _, fun k hk => mapGet_mapSet_ne _ _ _ _ hk⟩

/-- A receive buffer mid-transfer (one of two chunks stored). -/
def cDupBuf : FileReceiveBuffer :=
  { fileName := [97]
    fileSize := 2
    totalChunks := 2
    receivedChunks := [(0, [9])]
    receivedCount := 1
    lastReceivedTime := 0 }

/-- The duplicate `FileStart` for the C3 counterexample. -/
def cDupStartMsg : BinaryMessage :=
  { type := 0
    fileId := [102]
    fileName := some [97]
    fileSize := some 2
    totalChunks := some 2 }

/-- The buffer state after the duplicate start: progress wiped. -/
def cDupFresh : FileReceiveBuffer :=
  { fileName := [97]
    fileSize := 2
    totalChunks := 2
    receivedChunks := []
    receivedCount := 0
    lastReceivedTime := 7 }

/-- Counterexample to C3: a second `FileStart` for a `fileId` whose buffer
already holds a received chunk does NOT leave the receiver state unchanged —
it resets the buffer, dropping `receivedChunks` and `receivedCount`. -/
theorem handleFileStart_not_idempotent :
    handleFileStart 7 cDupStartMsg [([102], cDupBuf)] ≠ [([102], cDupBuf)] ∧
      mapGet (handleFileStart 7 cDupStartMsg [([102], cDupBuf)]) [102] = some cDupFresh := by
  decide

/-- Witness for the amended C3 theorem at the concrete duplicate start. -/
theorem handleFileStart_replaces_witness :
    mapGet (handleFileStart 7 cDupStartMsg [([102], cDupBuf)]) cDupStartMsg.fileId
      = some cDupFresh :=
  (handleFileStart_replaces 7 cDupStartMsg [([102], cDupBuf)] [97] 2 2 rfl
    (by decide) rfl rfl).1

/-- The per-buffer invariant of C9: the keys of `receivedChunks` are
pairwise distinct and `receivedCount` equals the number of entries, hence
the number of distinct keys. -/
abbrev bufferInv (b : FileReceiveBuffer) : Prop :=
  (b.receivedChunks.map Prod.fst).Nodup ∧ b.receivedCount = b.receivedChunks.length

/-- The receiver-wide invariant: every buffer satisfies `bufferInv`. -/
abbrev recvInv (bufs : ReceiverBuffers) : Prop := ∀ e ∈ bufs, bufferInv e.2

theorem recvInv_mapSet (bufs : ReceiverBuffers) (k : List Nat) (v : FileReceiveBuffer)
    (h : recvInv bufs) (hv : bufferInv v) : recvInv (mapSet bufs k v) := by
  intro e he
  rcases mem_mapSet he with he' | he'
  · exact h e he'
  · rw [he']
    exact hv

theorem recvInv_assemble (fid : List Nat) (bufs : ReceiverBuffers)
    (h : recvInv bufs) : recvInv (assembleAndSaveFile fid bufs).1 := by
  unfold assembleAndSaveFile
  cases hget : mapGet bufs fid with
  | none => exact h
  | some b =>
    dsimp only
    cases assembleGo b.receivedChunks b.totalChunks 0 (List.replicate b.fileSize 0) 0 with
    | delivered f =>
      intro e he
      exact h e (mem_mapDelete he)
    | missingChunk i => exact h
    | rangeError => exact h
    | noBuffer => exact h

theorem bufferInv_insert (b : FileReceiveBuffer) (hinv : bufferInv b)
    (ci : Nat) (p : List Nat) (now : Int)
    (hnot : mapHas b.receivedChunks ci = false) :
    bufferInv { b with receivedChunks := mapSet b.receivedChunks ci p,
                       receivedCount := b.receivedCount + 1,
                       lastReceivedTime := now } := by
  have hmem : ∀ e ∈ b.receivedChunks, e.1 ≠ ci := (mapHas_eq_false_iff _ _).mp hnot
  unfold mapSet
  rw [if_neg (by rw [hnot]; exact Bool.false_ne_true)]
  constructor
  · dsimp only
    rw [List.map_append, List.nodup_append]
    refine ⟨hinv.1, by simp, ?_⟩
    intro a ha
    obtain ⟨e, he, hfst⟩ := List.mem_map.mp ha
    simp only [List.map_cons, List.map_nil, List.mem_singleton]
    intro hc
    exact hmem e he (by rw [hfst, hc])
  · dsimp only
    rw [List.length_append, List.length_singleton, hinv.2]

/-- C9: in every receiver state satisfying the invariant, each receiver
operation — buffer creation/reset on `FileStart`, chunk storage on
`FileChunk` (with its lazily created buffer and possible assembly), and
buffer deletion after assembly — preserves the invariant that
`receivedCount` equals the number of distinct keys of `receivedChunks`. -/
theorem receiver_operations_preserve_count (now : Int) (m : BinaryMessage)
    (fid : List Nat) (bufs : ReceiverBuffers) (h : recvInv bufs) :
    recvInv (handleFileStart now m bufs) ∧
      recvInv (handleFileChunk now m bufs).1 ∧
      recvInv (assembleAndSaveFile fid bufs).1 := by
  refine ⟨?_, ?_, recvInv_assemble fid bufs h⟩
  · unfold handleFileStart
    cases m.fileName with
    | none => exact h
    | some nm =>
      cases m.fileSize with
      | none => exact h
      | some fs =>
        cases m.totalChunks with
        | none => exact h
        | some tc =>
          dsimp only
          split_ifs
          · exact h
          · exact recvInv_mapSet _ _ _ h ⟨List.nodup_nil, rfl⟩
  · unfold handleFileChunk
    cases m.fileName with
    | none => exact h
    | some nm =>
      cases m.chunkIndex with
      | none => exact h
      | some ci =>
        cases m.totalChunks with
        | none => exact h
        | some tc =>
          cases m.fileSize with
          | none => exact h
          | some fs =>
            cases m.payload with
            | none => exact h
            | some p =>
              dsimp only
              by_cases hnm : nm = []
              · rw [if_pos hnm]
                exact h
              · rw [if_neg hnm]
                generalize hbufeq : ((mapGet bufs m.fileId).getD
                    { fileName := nm, fileSize := fs, totalChunks := tc,
                      receivedChunks := [], receivedCount := 0,
                      lastReceivedTime := now } : FileReceiveBuffer) = buffer
                have hbuf : bufferInv buffer := by
                  rw [← hbufeq]
                  cases hg : mapGet bufs m.fileId with
                  | none => exact ⟨List.nodup_nil, rfl⟩
                  | some b => exact h (m.fileId, b) (mapGet_mem hg)
                generalize h1eq : (if mapHas bufs m.fileId = true then bufs
                    else mapSet bufs m.fileId buffer) = bufs1
                have hbufs1 : recvInv bufs1 := by
                  rw [← h1eq]
                  split_ifs
                  · exact h
                  · exact recvInv_mapSet _ _ _ h hbuf
                by_cases hdup : mapHas buffer.receivedChunks ci = true
                · rw [if_pos hdup]
                  exact hbufs1
                · rw [if_neg hdup]
                  by_cases hcomp : buffer.receivedCount + 1 = tc
                  · rw [if_pos hcomp]
                    dsimp only
                    exact recvInv_assemble _ _
                      (recvInv_mapSet _ _ _ hbufs1
                        (bufferInv_insert _ hbuf ci p now (Bool.not_eq_true _ ▸ hdup)))
                  · rw [if_neg hcomp]
                    exact recvInv_mapSet _ _ _ hbufs1
                      (bufferInv_insert _ hbuf ci p now (Bool.not_eq_true _ ▸ hdup))

/-- Concrete receiver state for the C9 witness. -/
def cInvBufs : ReceiverBuffers :=
  [([102], { fileName := [97], fileSize := 2, totalChunks := 2,
             receivedChunks := [(0, [9])], receivedCount := 1, lastReceivedTime := 0 })]

/-- Concrete `FileChunk` message for the C9 witness. -/
def cInvChunkMsg : BinaryMessage :=
  { type := 1
    fileId := [102]
    chunkIndex := some 1
    totalChunks := some 2
    fileSize := some 2
    fileName := some [97]
    payload := some [8] }

/-- Witness for C9 at a concrete state and chunk message. -/
theorem receiver_operations_preserve_count_witness :
    recvInv cInvBufs ∧ recvInv (handleFileChunk 3 cInvChunkMsg cInvBufs).1 :=
  ⟨by decide,
    (receiver_operations_preserve_count 3 cInvChunkMsg [102] cInvBufs (by decide)).2.1⟩

/-- Total byte length of the chunks at indices `[i, k)` (0 for absent ones). -/
def sumLenFrom (chunks : List (Nat × List Nat)) (i k : Nat) : Nat :=
  ((List.range' i (k - i)).map fun j => ((mapGet chunks j).getD []).length).sum

theorem sumLenFrom_step (chunks : List (Nat × List Nat)) (i k : Nat) (h : i < k) :
    sumLenFrom chunks i k =
      ((mapGet chunks i).getD []).length + sumLenFrom chunks (i + 1) k := by
  unfold sumLenFrom
  have hk : k - i = (k - (i + 1)) + 1 := by omega
  rw [hk, List.range'_succ, List.map_cons, List.sum_cons]

theorem writeList_length (target src : List Nat) (off : Nat)
    (h : off + src.length ≤ target.length) :
    (writeList target off src).length = target.length := by
  unfold writeList
  rw [List.length_append, List.length_append, List.length_take, List.length_drop]
  omega

theorem assembleGo_delivered (chunks : List (Nat × List Nat)) :
    ∀ (rem i : Nat) (file : List Nat) (off : Nat),
    (∀ j, i ≤ j → j < i + rem → (mapGet chunks j).isSome = true) →
    off + sumLenFrom chunks i (i + rem) ≤ file.length →
    ∃ out, assembleGo chunks rem i file off = .delivered out ∧
      out.length = file.length := by
  intro rem
  induction rem with
  | zero => exact fun i file off _ _ => ⟨file, rfl, rfl⟩
  | succ n ih =>
    intro i file off hpres hfit
    obtain ⟨c, hc⟩ := Option.isSome_iff_exists.mp (hpres i le_rfl (by omega))
    have hstep : sumLenFrom chunks i (i + (n + 1)) =
        c.length + sumLenFrom chunks (i + 1) (i + (n + 1)) := by
      rw [sumLenFrom_step chunks i _ (by omega), hc]
      rfl
    rw [hstep] at hfit
    have hin : off + c.length ≤ file.length := by omega
    have hrec := ih (i + 1) (writeList file off c) (off + c.length)
      (fun j h1 h2 => hpres j (by omega) (by omega))
      (by
        rw [writeList_length _ _ _ hin]
        have he : i + 1 + n = i + (n + 1) := by omega
        rw [he]
        omega)
    obtain ⟨out, hout, hlen⟩ := hrec
    refine ⟨out, ?_, by rw [hlen, writeList_length _ _ _ hin]⟩
    unfold assembleGo
    rw [hc]
    dsimp only
    rw [if_pos hin]
    exact hout

theorem assembleGo_missing (chunks : List (Nat × List Nat)) :
    ∀ (rem i k : Nat) (file : List Nat) (off : Nat),
    i ≤ k → k < i + rem →
    mapGet chunks k = none →
    (∀ j, i ≤ j → j < k → (mapGet chunks j).isSome = true) →
    off + sumLenFrom chunks i k ≤ file.length →
    assembleGo chunks rem i file off = .missingChunk k := by
  intro rem
  induction rem with
  | zero => intro i k file off h1 h2 _ _ _; omega
  | succ n ih =>
    intro i k file off hik hkr hmiss hpres hfit
    by_cases hi : i = k
    · subst hi
      unfold assembleGo
      rw [hmiss]
    · have hlt : i < k := lt_of_le_of_ne hik hi
      obtain ⟨c, hc⟩ := Option.isSome_iff_exists.mp (hpres i le_rfl hlt)
      have hstep : sumLenFrom chunks i k =
          c.length + sumLenFrom chunks (i + 1) k := by
        rw [sumLenFrom_step chunks i k hlt, hc]
        rfl
      rw [hstep] at hfit
      have hin : off + c.length ≤ file.length := by omega
      unfold assembleGo
      rw [hc]
      dsimp only
      rw [if_pos hin]
      apply ih (i + 1) k (writeList file off c) (off + c.length) (by omega) (by omega)
        hmiss (fun j hj1 hj2 => hpres j (by omega) hj2)
      rw [writeList_length _ _ _ hin]
      omega

/-- C4 amended: when assembly runs on a buffer whose chunks up to the first
missing index fit inside `fileSize`, a missing index `k < totalChunks`
aborts with `missingChunk k` and the error is surfaced — but the
`ReceiveBuffer` is NOT discarded: the buffers map is returned unchanged
(the early return precedes the delete).  When no index is missing and the
chunks fit, a contiguous buffer of length exactly `fileSize` is delivered
and the `ReceiveBuffer` is discarded. -/
theorem assembleAndSaveFile_spec (fid : List Nat) (bufs : ReceiverBuffers)
    (b : FileReceiveBuffer) (hb : mapGet bufs fid = some b) :
    (∀ k, k < b.totalChunks → mapGet b.receivedChunks k = none →
      (∀ j, j < k → (mapGet b.receivedChunks j).isSome = true) →
      sumLenFrom b.receivedChunks 0 k ≤ b.fileSize →
      assembleAndSaveFile fid bufs = (bufs, .missingChunk k)) ∧
    ((∀ j, j < b.totalChunks → (mapGet b.receivedChunks j).isSome = true) →
      sumLenFrom b.receivedChunks 0 b.totalChunks ≤ b.fileSize →
      ∃ out, assembleAndSaveFile fid bufs = (mapDelete bufs fid, .delivered out) ∧
        out.length = b.fileSize) := by
  constructor
  · intro k hk hmiss hpres hfit
    unfold assembleAndSaveFile
    rw [hb]
    dsimp only
    rw [assembleGo_missing b.receivedChunks b.totalChunks 0 k _ 0 (Nat.zero_le k)
      (by omega) hmiss (fun j _ hj => hpres j hj)
      (by rw [List.length_replicate]; omega)]
  · intro hpres hfit
    unfold assembleAndSaveFile
    rw [hb]
    dsimp only
    obtain ⟨out, hout, hlen⟩ := assembleGo_delivered b.receivedChunks b.totalChunks 0
      (List.replicate b.fileSize 0) 0 (fun j _ hj => hpres j (by omega))
      (by
        rw [List.length_replicate]
        have h0 : 0 + b.totalChunks = b.totalChunks := by omega
        rw [h0]
        omega)
    rw [hout]
    exact ⟨out, rfl, by rw [hlen, List.length_replicate]⟩

/-- A buffer that triggered assembly (receivedCount = totalChunks = 2) but
holds chunk 5 instead of chunk 1, so index 1 is missing. -/
def cMissBuf : FileReceiveBuffer :=
  { fileName := [97]
    fileSize := 2
    totalChunks := 2
    receivedChunks := [(0, [1]), (5, [2])]
    receivedCount := 2
    lastReceivedTime := 0 }

/-- The buffers map holding `cMissBuf`. -/
def cMissBufs : ReceiverBuffers := [([102], cMissBuf)]

/-- Counterexample to C4: on a missing index, assembly aborts with
`MissingChunkError` but the `ReceiveBuffer` is NOT discarded — the buffers
map still holds the `fileId` afterwards, contrary to the claim. -/
theorem assemble_missing_keeps_buffer :
    assembleAndSaveFile [102] cMissBufs = (cMissBufs, AssembleResult.missingChunk 1) ∧
      mapHas (assembleAndSaveFile [102] cMissBufs).1 [102] = true := by
  decide

/-- Witness for the amended C4 theorem at the concrete missing-chunk state. -/
theorem assembleAndSaveFile_spec_witness :
    mapGet cMissBufs [102] = some cMissBuf ∧
      assembleAndSaveFile [102] cMissBufs = (cMissBufs, AssembleResult.missingChunk 1) :=
  ⟨by decide,
    (assembleAndSaveFile_spec [102] cMissBufs cMissBuf (by decide)).1 1 (by decide)
      (by decide) (by decide) (by decide)⟩

/-! ## Slicing lemmas -/

theorem flatten_chunks (f : List Nat) :
    ∀ n, ((List.range n).map fun i =>
      (f.drop (i * CHUNK_SIZE)).take CHUNK_SIZE).flatten = f.take (n * CHUNK_SIZE) := by
  intro n
  induction n with
  | zero =>
    rw [Nat.zero_mul, List.take_zero]
    rfl
  | succ k ih =>
    rw [List.range_succ, List.map_append, List.flatten_append, ih, List.map_cons,
      List.map_nil, List.flatten_cons, List.flatten_nil, List.append_nil]
    have hmul : (k + 1) * CHUNK_SIZE = k * CHUNK_SIZE + CHUNK_SIZE :=
      Nat.succ_mul k CHUNK_SIZE
    rw [hmul, List.take_add]

theorem sliceFile_data (f : List Nat) (i : Nat) :
    (f.drop (i * CHUNK_SIZE)).take
        (min (i * CHUNK_SIZE + CHUNK_SIZE) f.length - i * CHUNK_SIZE)
      = (f.drop (i * CHUNK_SIZE)).take CHUNK_SIZE := by
  rw [List.take_eq_take, List.length_drop]
  unfold CHUNK_SIZE
  omega

/-- C5: for every file sliced by `sendFileInChunks` with `CHUNK_SIZE`:
the number of chunks is `Math.ceil(size / CHUNK_SIZE)` (characterised as the
least multiple bound: `size ≤ totalChunks * CHUNK_SIZE` and, for nonempty
files, `(totalChunks - 1) * CHUNK_SIZE < size`); every chunk carries that
`totalChunks` and an index in `[0, totalChunks)`; every chunk except
possibly the last has length exactly `CHUNK_SIZE`; the last chunk has length
`size - (totalChunks - 1) * CHUNK_SIZE`; and the payload lengths sum to the
file size. -/
theorem sliceFile_spec (fileName fileId file : List Nat) :
    (sliceFile fileName fileId file).length
        = (file.length + CHUNK_SIZE - 1) / CHUNK_SIZE ∧
    (∀ c ∈ sliceFile fileName fileId file,
      c.totalChunks = (file.length + CHUNK_SIZE - 1) / CHUNK_SIZE ∧
      c.chunkIndex < c.totalChunks ∧
      (c.chunkIndex + 1 < c.totalChunks → c.data.length = CHUNK_SIZE) ∧
      (c.chunkIndex + 1 = c.totalChunks →
        c.data.length = file.length - (c.totalChunks - 1) * CHUNK_SIZE)) ∧
    ((sliceFile fileName fileId file).map fun c => c.data.length).sum = file.length ∧
    file.length ≤ ((file.length + CHUNK_SIZE - 1) / CHUNK_SIZE) * CHUNK_SIZE ∧
    (0 < file.length →
      (((file.length + CHUNK_SIZE - 1) / CHUNK_SIZE) - 1) * CHUNK_SIZE < file.length) := by
  refine ⟨?_, ?_, ?_, ?_, ?_⟩
  · simp [sliceFile]
  · intro c hc
    unfold sliceFile at hc
    obtain ⟨i, hi, hceq⟩ := List.mem_map.mp hc
    rw [List.mem_range] at hi
    subst hceq
    dsimp only
    refine ⟨rfl, hi, ?_, ?_⟩
    · intro hlast
      rw [List.length_take, List.length_drop]
      unfold CHUNK_SIZE at *
      omega
    · intro hlast
      rw [List.length_take, List.length_drop]
      unfold CHUNK_SIZE at *
      omega
  · have hmap : (sliceFile fileName fileId file).map (fun c => c.data.length)
        = ((List.range ((file.length + CHUNK_SIZE - 1) / CHUNK_SIZE)).map fun i =>
            (file.drop (i * CHUNK_SIZE)).take CHUNK_SIZE).map List.length := by
      unfold sliceFile
      rw [List.map_map, List.map_map]
      apply List.map_congr_left
      intro i hi
      dsimp only [Function.comp]
      rw [sliceFile_data]
    rw [hmap, ← List.length_flatten, flatten_chunks, List.length_take]
    unfold CHUNK_SIZE
    omega
  · unfold CHUNK_SIZE
    omega
  · intro h
    unfold CHUNK_SIZE
    omega

/-! ## Byte-segment lemmas for the wire codec -/

theorem writeBytes_eq_of_parts (buf p q r bs : List Nat) (off : Nat)
    (hbuf : buf = p ++ (q ++ r)) (hoff : off = p.length) (hlen : q.length = bs.length) :
    writeBytes buf off bs = some (p ++ (bs ++ r)) := by
  subst hbuf
  subst hoff
  unfold writeBytes
  rw [if_pos (by rw [List.length_append, List.length_append]; omega)]
  have htake : (p ++ (q ++ r)).take p.length = p := by
    rw [List.take_left]
  have hdrop : (p ++ (q ++ r)).drop (p.length + bs.length) = r := by
    rw [← hlen, ← List.append_assoc, ← List.length_append]
    exact List.drop_left (p ++ q) r
  rw [htake, hdrop, List.append_assoc]

theorem readBytes_eq_of_parts (data p q r : List Nat) (off len : Nat)
    (hdata : data = p ++ (q ++ r)) (hoff : off = p.length) (hlen : len = q.length) :
    readBytes data off len = some q := by
  subst hdata
  subst hoff
  subst hlen
  unfold readBytes
  rw [if_pos (by rw [List.length_append, List.length_append]; omega)]
  rw [List.drop_left, List.take_left]

theorem drop_eq_of_parts (data p r : List Nat) (off : Nat)
    (hdata : data = p ++ r) (hoff : off = p.length) : data.drop off = r := by
  subst hdata
  subst hoff
  exact List.drop_left p r

/-! ## UTF-8 lemmas (ASCII fragment) -/

theorem utf8EncodeChar_ascii (c : Nat) (h : c < 128) : utf8EncodeChar c = [c] := by
  unfold utf8EncodeChar
  rw [if_pos h]

theorem utf8EncodeStr_ascii (s : List Nat) (h : ∀ c ∈ s, c < 128) :
    utf8EncodeStr s = s := by
  induction s with
  | nil => rfl
  | cons c t ih =>
    unfold utf8EncodeStr
    rw [List.map_cons, List.flatten_cons, utf8EncodeChar_ascii c (h c (by simp))]
    have := ih fun x hx => h x (List.mem_cons_of_mem _ hx)
    unfold utf8EncodeStr at this
    rw [this]
    rfl

theorem utf8DecodeGo_ascii (fuel : Nat) :
    ∀ s : List Nat, s.length ≤ fuel → (∀ c ∈ s, c < 128) →
    utf8DecodeGo fuel s = s := by
  induction fuel with
  | zero =>
    intro s hs _
    cases s with
    | nil => rfl
    | cons c t => simp at hs
  | succ n ih =>
    intro s hs hascii
    cases s with
    | nil => rfl
    | cons c t =>
      unfold utf8DecodeGo
      rw [if_pos (hascii c (by simp))]
      rw [ih t (by simpa using Nat.le_of_succ_le_succ (by simpa using hs))
        (fun x hx => hascii x (List.mem_cons_of_mem _ hx))]

theorem utf8Decode_ascii (s : List Nat) (h : ∀ c ∈ s, c < 128) :
    utf8Decode s = s :=
  utf8DecodeGo_ascii s.length s le_rfl h

/-! ## Little-endian value lemmas -/

theorem leVal_u16le (n : Nat) : leVal (u16le n) = n % 65536 := by
  unfold leVal u16le
  simp only [List.foldr]
  omega

theorem leVal_u32le (n : Nat) : leVal (u32le n) = n % 4294967296 := by
  unfold leVal u32le
  simp only [List.foldr]
  omega

theorem leVal_u64le (n : Nat) : leVal (u64le n) = n % 18446744073709551616 := by
  unfold leVal u64le u32le
  simp only [List.cons_append, List.nil_append, List.foldr]
  omega

theorem u16le_length (n : Nat) : (u16le n).length = 2 := rfl

theorem u32le_length (n : Nat) : (u32le n).length = 4 := rfl

theorem u64le_length (n : Nat) : (u64le n).length = 8 := by
  unfold u64le
  rw [List.length_append, u32le_length, u32le_length]

/-! ## fileId padding lemmas -/

theorem padEnd_encode (fid : List Nat) (h : ∀ c ∈ fid, c < 128) (_hlen : fid.length ≤ 36) :
    utf8EncodeStr (padEndChar fid 36 0) = fid ++ List.replicate (36 - fid.length) 0 := by
  unfold padEndChar
  apply utf8EncodeStr_ascii
  intro c hc
  rcases List.mem_append.mp hc with hc | hc
  · exact h c hc
  · rw [List.eq_of_mem_replicate hc]
    omega

theorem padEnd_encode_length (fid : List Nat) (h : ∀ c ∈ fid, c < 128)
    (hlen : fid.length ≤ 36) :
    (utf8EncodeStr (padEndChar fid 36 0)).length = 36 := by
  rw [padEnd_encode fid h hlen, List.length_append, List.length_replicate]
  omega

theorem filter_pad_id (fid : List Nat) (k : Nat) (h : ∀ c ∈ fid, c ≠ 0) :
    ((fid ++ List.replicate k 0).filter fun c => decide (c ≠ 0)) = fid := by
  rw [List.filter_append]
  have h1 : fid.filter (fun c => decide (c ≠ 0)) = fid :=
    List.filter_eq_self.mpr fun c hc => by simpa using h c hc
  have h2 : (List.replicate k (0 : Nat)).filter (fun c => decide (c ≠ 0)) = [] := by
    induction k with
    | zero => rfl
    | succ j ih =>
      rw [List.replicate_succ, List.filter_cons]
      simp
  rw [h1, h2, List.append_nil]

/-! ## Canonical encodings of the three chunk-protocol message shapes -/

/-- The `FileStart` message as built by `sendFileInChunks`. -/
def startMsg (fid nm : List Nat) (tc fs : Nat) : BinaryMessage :=
  { type := 0
    fileId := fid
    totalChunks := some tc
    fileSize := some fs
    fileName := some nm }

/-- The `FileChunk` message as built by `processSendQueue`. -/
def chunkMsg (fid nm : List Nat) (ci tc fs : Nat) (p : List Nat) : BinaryMessage :=
  { type := 1
    fileId := fid
    chunkIndex := some ci
    totalChunks := some tc
    fileSize := some fs
    fileName := some nm
    payload := some p }

/-- The `ChunkAck` message as built by `handleFileChunk`. -/
def ackMsg (fid : List Nat) (ci : Nat) : BinaryMessage :=
  { type := 2
    fileId := fid
    chunkIndex := some ci }

theorem encode_start (fid nm : List Nat) (tc fs : Nat)
    (hid : (utf8EncodeStr (padEndChar fid 36 0)).length = 36)
    (hfn : (utf8EncodeStr (nm.take MAX_FILENAME_LENGTH)).length ≤ MAX_FILENAME_LENGTH) :
    encodeBinaryMessage (startMsg fid nm tc fs)
      = some ([0] ++ (utf8EncodeStr (padEndChar fid 36 0) ++ (u32le 0 ++ (u32le tc
        ++ (u64le fs ++ (u16le (utf8EncodeStr (nm.take MAX_FILENAME_LENGTH)).length
        ++ (utf8EncodeStr (nm.take MAX_FILENAME_LENGTH)
        ++ List.replicate (MAX_FILENAME_LENGTH
            - (utf8EncodeStr (nm.take MAX_FILENAME_LENGTH)).length) 0))))))) := by
  have hmin : min (utf8EncodeStr (nm.take MAX_FILENAME_LENGTH)).length MAX_FILENAME_LENGTH
      = (utf8EncodeStr (nm.take MAX_FILENAME_LENGTH)).length := min_eq_left hfn
  have hw1 : writeBytes (List.replicate HEADER_SIZE 0) 0 [0 % 256]
      = some ([0] ++ List.replicate 255 0) :=
    writeBytes_eq_of_parts (List.replicate HEADER_SIZE 0) [] [(0:Nat)]
      (List.replicate 255 0) [0 % 256] 0 rfl rfl rfl
  have hw2 : writeBytes ([0] ++ List.replicate 255 0) 1 (utf8EncodeStr (padEndChar fid 36 0))
      = some ([0] ++ (utf8EncodeStr (padEndChar fid 36 0) ++ List.replicate 219 0)) :=
    writeBytes_eq_of_parts ([0] ++ List.replicate 255 0) [0] (List.replicate 36 0)
      (List.replicate 219 0) (utf8EncodeStr (padEndChar fid 36 0)) 1
      (by rw [← List.replicate_add]) rfl
      (by rw [List.length_replicate, hid])
  have hw4 : writeBytes ([0] ++ (utf8EncodeStr (padEndChar fid 36 0)
        ++ List.replicate 219 0)) 41 (u32le tc)
      = some (([0] ++ (utf8EncodeStr (padEndChar fid 36 0) ++ u32le 0))
          ++ (u32le tc ++ List.replicate 211 0)) :=
    writeBytes_eq_of_parts _ ([0] ++ (utf8EncodeStr (padEndChar fid 36 0) ++ u32le 0))
      (List.replicate 4 0) (List.replicate 211 0) (u32le tc) 41
      (by
        rw [show u32le 0 = List.replicate 4 (0:Nat) from rfl,
          show (219:Nat) = 4 + (4 + 211) from rfl, List.replicate_add, List.replicate_add]
        simp [List.append_assoc])
      (by simp [List.length_append, hid, u32le_length])
      (by rw [List.length_replicate, u32le_length])
  have hw5 : writeBytes (([0] ++ (utf8EncodeStr (padEndChar fid 36 0) ++ u32le 0))
        ++ (u32le tc ++ List.replicate 211 0)) 45 (u64le fs)
      = some ((([0] ++ (utf8EncodeStr (padEndChar fid 36 0) ++ u32le 0)) ++ u32le tc)
          ++ (u64le fs ++ List.replicate 203 0)) :=
    writeBytes_eq_of_parts _
      (([0] ++ (utf8EncodeStr (padEndChar fid 36 0) ++ u32le 0)) ++ u32le tc)
      (List.replicate 8 0) (List.replicate 203 0) (u64le fs) 45
      (by
        rw [show (211:Nat) = 8 + 203 from rfl, List.replicate_add]
        simp [List.append_assoc])
      (by simp [List.length_append, hid, u32le_length])
      (by rw [List.length_replicate, u64le_length])
  have hw6 : writeBytes ((([0] ++ (utf8EncodeStr (padEndChar fid 36 0) ++ u32le 0))
        ++ u32le tc) ++ (u64le fs ++ List.replicate 203 0)) 53
        (u16le (utf8EncodeStr (nm.take MAX_FILENAME_LENGTH)).length)
      = some (((([0] ++ (utf8EncodeStr (padEndChar fid 36 0) ++ u32le 0)) ++ u32le tc)
          ++ u64le fs)
          ++ (u16le (utf8EncodeStr (nm.take MAX_FILENAME_LENGTH)).length
            ++ List.replicate 201 0)) :=
    writeBytes_eq_of_parts _
      ((([0] ++ (utf8EncodeStr (padEndChar fid 36 0) ++ u32le 0)) ++ u32le tc) ++ u64le fs)
      (List.replicate 2 0) (List.replicate 201 0)
      (u16le (utf8EncodeStr (nm.take MAX_FILENAME_LENGTH)).length) 53
      (by
        rw [show (203:Nat) = 2 + 201 from rfl, List.replicate_add]
        simp [List.append_assoc])
      (by simp [List.length_append, hid, u32le_length, u64le_length])
      (by rw [List.length_replicate, u16le_length])
  have hsplitfn : List.replicate 201 (0:Nat)
      = List.replicate (utf8EncodeStr (nm.take MAX_FILENAME_LENGTH)).length 0
        ++ List.replicate
          (MAX_FILENAME_LENGTH - (utf8EncodeStr (nm.take MAX_FILENAME_LENGTH)).length) 0 := by
    rw [← List.replicate_add]
    congr 1
    unfold MAX_FILENAME_LENGTH at hfn ⊢
    omega
  have hw7 : writeBytes (((([0] ++ (utf8EncodeStr (padEndChar fid 36 0) ++ u32le 0))
        ++ u32le tc) ++ u64le fs)
        ++ (u16le (utf8EncodeStr (nm.take MAX_FILENAME_LENGTH)).length
          ++ List.replicate 201 0)) 55 (utf8EncodeStr (nm.take MAX_FILENAME_LENGTH))
      = some ((((([0] ++ (utf8EncodeStr (padEndChar fid 36 0) ++ u32le 0)) ++ u32le tc)
          ++ u64le fs) ++ u16le (utf8EncodeStr (nm.take MAX_FILENAME_LENGTH)).length)
          ++ (utf8EncodeStr (nm.take MAX_FILENAME_LENGTH)
            ++ List.replicate
              (MAX_FILENAME_LENGTH
                - (utf8EncodeStr (nm.take MAX_FILENAME_LENGTH)).length) 0)) :=
    writeBytes_eq_of_parts _
      ((((([0] ++ (utf8EncodeStr (padEndChar fid 36 0) ++ u32le 0)) ++ u32le tc)
        ++ u64le fs) ++ u16le (utf8EncodeStr (nm.take MAX_FILENAME_LENGTH)).length))
      (List.replicate (utf8EncodeStr (nm.take MAX_FILENAME_LENGTH)).length 0)
      (List.replicate
        (MAX_FILENAME_LENGTH - (utf8EncodeStr (nm.take MAX_FILENAME_LENGTH)).length) 0)
      (utf8EncodeStr (nm.take MAX_FILENAME_LENGTH)) 55
      (by
        rw [hsplitfn]
        simp [List.append_assoc])
      (by simp [List.length_append, hid, u32le_length, u64le_length, u16le_length])
      (by rw [List.length_replicate])
  unfold encodeBinaryMessage startMsg
  simp only [Option.getD_some, hmin, hw1, Option.some_bind, hw2, hw4, hw5, hw6, hw7]
  simp [List.append_assoc]

theorem encode_chunk (fid nm : List Nat) (ci tc fs : Nat) (p : List Nat)
    (hid : (utf8EncodeStr (padEndChar fid 36 0)).length = 36)
    (hfn : (utf8EncodeStr (nm.take MAX_FILENAME_LENGTH)).length ≤ MAX_FILENAME_LENGTH) :
    encodeBinaryMessage (chunkMsg fid nm ci tc fs p)
      = some ([1] ++ (utf8EncodeStr (padEndChar fid 36 0) ++ (u32le ci ++ (u32le tc
        ++ (u64le fs ++ (u16le (utf8EncodeStr (nm.take MAX_FILENAME_LENGTH)).length
        ++ (utf8EncodeStr (nm.take MAX_FILENAME_LENGTH)
        ++ (List.replicate (MAX_FILENAME_LENGTH
            - (utf8EncodeStr (nm.take MAX_FILENAME_LENGTH)).length) 0 ++ p)))))))) := by
  have hmin : min (utf8EncodeStr (nm.take MAX_FILENAME_LENGTH)).length MAX_FILENAME_LENGTH
      = (utf8EncodeStr (nm.take MAX_FILENAME_LENGTH)).length := min_eq_left hfn
  have hw1 : writeBytes (List.replicate HEADER_SIZE 0) 0 [1 % 256]
      = some ([1] ++ List.replicate 255 0) :=
    writeBytes_eq_of_parts (List.replicate HEADER_SIZE 0) [] [(0:Nat)]
      (List.replicate 255 0) [1 % 256] 0 rfl rfl rfl
  have hw2 : writeBytes ([1] ++ List.replicate 255 0) 1 (utf8EncodeStr (padEndChar fid 36 0))
      = some ([1] ++ (utf8EncodeStr (padEndChar fid 36 0) ++ List.replicate 219 0)) :=
    writeBytes_eq_of_parts ([1] ++ List.replicate 255 0) [1] (List.replicate 36 0)
      (List.replicate 219 0) (utf8EncodeStr (padEndChar fid 36 0)) 1
      (by rw [← List.replicate_add]) rfl
      (by rw [List.length_replicate, hid])
  have hw3 : writeBytes ([1] ++ (utf8EncodeStr (padEndChar fid 36 0)
        ++ List.replicate 219 0)) 37 (u32le ci)
      = some (([1] ++ utf8EncodeStr (padEndChar fid 36 0))
          ++ (u32le ci ++ List.replicate 215 0)) :=
    writeBytes_eq_of_parts _ ([1] ++ utf8EncodeStr (padEndChar fid 36 0))
      (List.replicate 4 0) (List.replicate 215 0) (u32le ci) 37
      (by
        rw [show (219:Nat) = 4 + 215 from rfl, List.replicate_add]
        simp [List.append_assoc])
      (by simp [List.length_append, hid])
      (by rw [List.length_replicate, u32le_length])
  have hw4 : writeBytes (([1] ++ utf8EncodeStr (padEndChar fid 36 0))
        ++ (u32le ci ++ List.replicate 215 0)) 41 (u32le tc)
      = some ((([1] ++ utf8EncodeStr (padEndChar fid 36 0)) ++ u32le ci)
          ++ (u32le tc ++ List.replicate 211 0)) :=
    writeBytes_eq_of_parts _ (([1] ++ utf8EncodeStr (padEndChar fid 36 0)) ++ u32le ci)
      (List.replicate 4 0) (List.replicate 211 0) (u32le tc) 41
      (by
        rw [show (215:Nat) = 4 + 211 from rfl, List.replicate_add]
        simp [List.append_assoc])
      (by simp [List.length_append, hid, u32le_length])
      (by rw [List.length_replicate, u32le_length])
  have hw5 : writeBytes ((([1] ++ utf8EncodeStr (padEndChar fid 36 0)) ++ u32le ci)
        ++ (u32le tc ++ List.replicate 211 0)) 45 (u64le fs)
      = some (((([1] ++ utf8EncodeStr (padEndChar fid 36 0)) ++ u32le ci) ++ u32le tc)
          ++ (u64le fs ++ List.replicate 203 0)) :=
    writeBytes_eq_of_parts _
      ((([1] ++ utf8EncodeStr (padEndChar fid 36 0)) ++ u32le ci) ++ u32le tc)
      (List.replicate 8 0) (List.replicate 203 0) (u64le fs) 45
      (by
        rw [show (211:Nat) = 8 + 203 from rfl, List.replicate_add]
        simp [List.append_assoc])
      (by simp [List.length_append, hid, u32le_length])
      (by rw [List.length_replicate, u64le_length])
  have hw6 : writeBytes (((([1] ++ utf8EncodeStr (padEndChar fid 36 0)) ++ u32le ci)
        ++ u32le tc) ++ (u64le fs ++ List.replicate 203 0)) 53
        (u16le (utf8EncodeStr (nm.take MAX_FILENAME_LENGTH)).length)
      = some ((((([1] ++ utf8EncodeStr (padEndChar fid 36 0)) ++ u32le ci) ++ u32le tc)
          ++ u64le fs)
          ++ (u16le (utf8EncodeStr (nm.take MAX_FILENAME_LENGTH)).length
            ++ List.replicate 201 0)) :=
    writeBytes_eq_of_parts _
      (((([1] ++ utf8EncodeStr (padEndChar fid 36 0)) ++ u32le ci) ++ u32le tc) ++ u64le fs)
      (List.replicate 2 0) (List.replicate 201 0)
      (u16le (utf8EncodeStr (nm.take MAX_FILENAME_LENGTH)).length) 53
      (by
        rw [show (203:Nat) = 2 + 201 from rfl, List.replicate_add]
        simp [List.append_assoc])
      (by simp [List.length_append, hid, u32le_length, u64le_length])
      (by rw [List.length_replicate, u16le_length])
  have hsplitfn : List.replicate 201 (0:Nat)
      = List.replicate (utf8EncodeStr (nm.take MAX_FILENAME_LENGTH)).length 0
        ++ List.replicate
          (MAX_FILENAME_LENGTH - (utf8EncodeStr (nm.take MAX_FILENAME_LENGTH)).length) 0 := by
    rw [← List.replicate_add]
    congr 1
    unfold MAX_FILENAME_LENGTH at hfn ⊢
    omega
  have hw7 : writeBytes ((((([1] ++ utf8EncodeStr (padEndChar fid 36 0)) ++ u32le ci)
        ++ u32le tc) ++ u64le fs)
        ++ (u16le (utf8EncodeStr (nm.take MAX_FILENAME_LENGTH)).length
          ++ List.replicate 201 0)) 55 (utf8EncodeStr (nm.take MAX_FILENAME_LENGTH))
      = some (((((([1] ++ utf8EncodeStr (padEndChar fid 36 0)) ++ u32le ci) ++ u32le tc)
          ++ u64le fs) ++ u16le (utf8EncodeStr (nm.take MAX_FILENAME_LENGTH)).length)
          ++ (utf8EncodeStr (nm.take MAX_FILENAME_LENGTH)
            ++ List.replicate
              (MAX_FILENAME_LENGTH
                - (utf8EncodeStr (nm.take MAX_FILENAME_LENGTH)).length) 0)) :=
    writeBytes_eq_of_parts _
      ((((([1] ++ utf8EncodeStr (padEndChar fid 36 0)) ++ u32le ci) ++ u32le tc)
        ++ u64le fs) ++ u16le (utf8EncodeStr (nm.take MAX_FILENAME_LENGTH)).length)
      (List.replicate (utf8EncodeStr (nm.take MAX_FILENAME_LENGTH)).length 0)
      (List.replicate
        (MAX_FILENAME_LENGTH - (utf8EncodeStr (nm.take MAX_FILENAME_LENGTH)).length) 0)
      (utf8EncodeStr (nm.take MAX_FILENAME_LENGTH)) 55
      (by
        rw [hsplitfn]
        simp [List.append_assoc])
      (by simp [List.length_append, hid, u32le_length, u64le_length, u16le_length])
      (by rw [List.length_replicate])
  unfold encodeBinaryMessage chunkMsg
  simp only [Option.getD_some, hmin, hw1, Option.some_bind, hw2, hw3, hw4, hw5, hw6, hw7]
  simp [List.append_assoc]

theorem encode_ack (fid : List Nat) (ci : Nat)
    (hid : (utf8EncodeStr (padEndChar fid 36 0)).length = 36) :
    encodeBinaryMessage (ackMsg fid ci)
      = some ([2] ++ (utf8EncodeStr (padEndChar fid 36 0)
          ++ (u32le ci ++ List.replicate 215 0))) := by
  have hw1 : writeBytes (List.replicate HEADER_SIZE 0) 0 [2 % 256]
      = some ([2] ++ List.replicate 255 0) :=
    writeBytes_eq_of_parts (List.replicate HEADER_SIZE 0) [] [(0:Nat)]
      (List.replicate 255 0) [2 % 256] 0 rfl rfl rfl
  have hw2 : writeBytes ([2] ++ List.replicate 255 0) 1 (utf8EncodeStr (padEndChar fid 36 0))
      = some ([2] ++ (utf8EncodeStr (padEndChar fid 36 0) ++ List.replicate 219 0)) :=
    writeBytes_eq_of_parts ([2] ++ List.replicate 255 0) [2] (List.replicate 36 0)
      (List.replicate 219 0) (utf8EncodeStr (padEndChar fid 36 0)) 1
      (by rw [← List.replicate_add]) rfl
      (by rw [List.length_replicate, hid])
  have hw3 : writeBytes ([2] ++ (utf8EncodeStr (padEndChar fid 36 0)
        ++ List.replicate 219 0)) 37 (u32le ci)
      = some (([2] ++ utf8EncodeStr (padEndChar fid 36 0))
          ++ (u32le ci ++ List.replicate 215 0)) :=
    writeBytes_eq_of_parts _ ([2] ++ utf8EncodeStr (padEndChar fid 36 0))
      (List.replicate 4 0) (List.replicate 215 0) (u32le ci) 37
      (by
        rw [show (219:Nat) = 4 + 215 from rfl, List.replicate_add]
        simp [List.append_assoc])
      (by simp [List.length_append, hid])
      (by rw [List.length_replicate, u32le_length])
  have hemp : utf8EncodeStr (([] : List Nat).take MAX_FILENAME_LENGTH) = [] := rfl
  have hw7 : writeBytes (([2] ++ utf8EncodeStr (padEndChar fid 36 0))
        ++ (u32le ci ++ List.replicate 215 0)) 55 ([] : List Nat)
      = some (((([2] ++ utf8EncodeStr (padEndChar fid 36 0)) ++ u32le ci)
          ++ List.replicate 14 0) ++ ([] ++ List.replicate 201 0)) :=
    writeBytes_eq_of_parts _
      ((([2] ++ utf8EncodeStr (padEndChar fid 36 0)) ++ u32le ci) ++ List.replicate 14 0)
      ([] : List Nat) (List.replicate 201 0) ([] : List Nat) 55
      (by
        rw [show (215:Nat) = 14 + 201 from rfl, List.replicate_add]
        simp [List.append_assoc])
      (by simp [List.length_append, hid, u32le_length, List.length_replicate])
      rfl
  unfold encodeBinaryMessage ackMsg
  simp only [Option.getD_none, hemp, hw1, Option.some_bind, hw2, hw3, hw7]
  simp [List.append_assoc,
    show List.replicate 14 (0:Nat) ++ List.replicate 201 0 = List.replicate 215 0 from by
      rw [← List.replicate_add]]

theorem decode_start (idB u32a u32b u64 u16 fnb pad : List Nat)
    (hid : idB.length = 36) (ha : u32a.length = 4) (hb : u32b.length = 4)
    (h64 : u64.length = 8) (h16 : u16.length = 2)
    (hfnl : min (leVal u16) MAX_FILENAME_LENGTH = fnb.length) :
    decodeBinaryMessage ([0] ++ (idB ++ (u32a ++ (u32b ++ (u64 ++ (u16 ++ (fnb ++ pad)))))))
      = some { type := 0
               fileId := (utf8Decode idB).filter fun c => decide (c ≠ 0)
               totalChunks := some (leVal u32b)
               fileSize := some (leVal u64)
               fileName := some (utf8Decode fnb) } := by
  have hr0 : readBytes ([0] ++ (idB ++ (u32a ++ (u32b ++ (u64 ++ (u16 ++ (fnb ++ pad)))))))
      0 1 = some [0] :=
    readBytes_eq_of_parts _ [] [0] (idB ++ (u32a ++ (u32b ++ (u64 ++ (u16 ++ (fnb ++ pad))))))
      0 1 rfl rfl rfl
  have hr1 : readBytes ([0] ++ (idB ++ (u32a ++ (u32b ++ (u64 ++ (u16 ++ (fnb ++ pad)))))))
      1 36 = some idB :=
    readBytes_eq_of_parts _ [0] idB (u32a ++ (u32b ++ (u64 ++ (u16 ++ (fnb ++ pad)))))
      1 36 rfl rfl hid.symm
  have hr41 : readBytes ([0] ++ (idB ++ (u32a ++ (u32b ++ (u64 ++ (u16 ++ (fnb ++ pad)))))))
      41 4 = some u32b :=
    readBytes_eq_of_parts _ ([0] ++ (idB ++ u32a)) u32b (u64 ++ (u16 ++ (fnb ++ pad)))
      41 4 (by simp [List.append_assoc])
      (by simp [List.length_append, hid, ha]) hb.symm
  have hr45 : readBytes ([0] ++ (idB ++ (u32a ++ (u32b ++ (u64 ++ (u16 ++ (fnb ++ pad)))))))
      45 8 = some u64 :=
    readBytes_eq_of_parts _ ([0] ++ (idB ++ (u32a ++ u32b))) u64 (u16 ++ (fnb ++ pad))
      45 8 (by simp [List.append_assoc])
      (by simp [List.length_append, hid, ha, hb]) h64.symm
  have hr53 : readBytes ([0] ++ (idB ++ (u32a ++ (u32b ++ (u64 ++ (u16 ++ (fnb ++ pad)))))))
      53 2 = some u16 :=
    readBytes_eq_of_parts _ ([0] ++ (idB ++ (u32a ++ (u32b ++ u64)))) u16 (fnb ++ pad)
      53 2 (by simp [List.append_assoc])
      (by simp [List.length_append, hid, ha, hb, h64]) h16.symm
  have hr55 : readBytes ([0] ++ (idB ++ (u32a ++ (u32b ++ (u64 ++ (u16 ++ (fnb ++ pad)))))))
      55 (min (leVal u16) MAX_FILENAME_LENGTH) = some fnb :=
    readBytes_eq_of_parts _ ([0] ++ (idB ++ (u32a ++ (u32b ++ (u64 ++ u16))))) fnb pad
      55 (min (leVal u16) MAX_FILENAME_LENGTH) (by simp [List.append_assoc])
      (by simp [List.length_append, hid, ha, hb, h64, h16]) hfnl
  unfold decodeBinaryMessage
  simp only [hr0, hr1, hr41, hr45, hr53, hr55, Option.some_bind, List.headD_cons]
  norm_num

theorem decode_chunk (idB u32a u32b u64 u16 fnb pad p : List Nat)
    (hid : idB.length = 36) (ha : u32a.length = 4) (hb : u32b.length = 4)
    (h64 : u64.length = 8) (h16 : u16.length = 2)
    (hfnl : min (leVal u16) MAX_FILENAME_LENGTH = fnb.length)
    (hpadlen : fnb.length + pad.length = 201)
    (hp : p ≠ []) :
    decodeBinaryMessage
        ([1] ++ (idB ++ (u32a ++ (u32b ++ (u64 ++ (u16 ++ (fnb ++ (pad ++ p))))))))
      = some { type := 1
               fileId := (utf8Decode idB).filter fun c => decide (c ≠ 0)
               chunkIndex := some (leVal u32a)
               totalChunks := some (leVal u32b)
               fileSize := some (leVal u64)
               fileName := some (utf8Decode fnb)
               payload := some p } := by
  have hr0 : readBytes
      ([1] ++ (idB ++ (u32a ++ (u32b ++ (u64 ++ (u16 ++ (fnb ++ (pad ++ p)))))))) 0 1
      = some [1] :=
    readBytes_eq_of_parts _ [] [1]
      (idB ++ (u32a ++ (u32b ++ (u64 ++ (u16 ++ (fnb ++ (pad ++ p))))))) 0 1 rfl rfl rfl
  have hr1 : readBytes
      ([1] ++ (idB ++ (u32a ++ (u32b ++ (u64 ++ (u16 ++ (fnb ++ (pad ++ p)))))))) 1 36
      = some idB :=
    readBytes_eq_of_parts _ [1] idB
      (u32a ++ (u32b ++ (u64 ++ (u16 ++ (fnb ++ (pad ++ p)))))) 1 36 rfl rfl hid.symm
  have hr37 : readBytes
      ([1] ++ (idB ++ (u32a ++ (u32b ++ (u64 ++ (u16 ++ (fnb ++ (pad ++ p)))))))) 37 4
      = some u32a :=
    readBytes_eq_of_parts _ ([1] ++ idB) u32a
      (u32b ++ (u64 ++ (u16 ++ (fnb ++ (pad ++ p))))) 37 4
      (by simp [List.append_assoc]) (by simp [List.length_append, hid]) ha.symm
  have hr41 : readBytes
      ([1] ++ (idB ++ (u32a ++ (u32b ++ (u64 ++ (u16 ++ (fnb ++ (pad ++ p)))))))) 41 4
      = some u32b :=
    readBytes_eq_of_parts _ ([1] ++ (idB ++ u32a)) u32b
      (u64 ++ (u16 ++ (fnb ++ (pad ++ p)))) 41 4
      (by simp [List.append_assoc]) (by simp [List.length_append, hid, ha]) hb.symm
  have hr45 : readBytes
      ([1] ++ (idB ++ (u32a ++ (u32b ++ (u64 ++ (u16 ++ (fnb ++ (pad ++ p)))))))) 45 8
      = some u64 :=
    readBytes_eq_of_parts _ ([1] ++ (idB ++ (u32a ++ u32b))) u64
      (u16 ++ (fnb ++ (pad ++ p))) 45 8
      (by simp [List.append_assoc]) (by simp [List.length_append, hid, ha, hb]) h64.symm
  have hr53 : readBytes
      ([1] ++ (idB ++ (u32a ++ (u32b ++ (u64 ++ (u16 ++ (fnb ++ (pad ++ p)))))))) 53 2
      = some u16 :=
    readBytes_eq_of_parts _ ([1] ++ (idB ++ (u32a ++ (u32b ++ u64)))) u16
      (fnb ++ (pad ++ p)) 53 2
      (by simp [List.append_assoc]) (by simp [List.length_append, hid, ha, hb, h64]) h16.symm
  have hr55 : readBytes
      ([1] ++ (idB ++ (u32a ++ (u32b ++ (u64 ++ (u16 ++ (fnb ++ (pad ++ p)))))))) 55
      (min (leVal u16) MAX_FILENAME_LENGTH) = some fnb :=
    readBytes_eq_of_parts _ ([1] ++ (idB ++ (u32a ++ (u32b ++ (u64 ++ u16))))) fnb
      (pad ++ p) 55 (min (leVal u16) MAX_FILENAME_LENGTH)
      (by simp [List.append_assoc])
      (by simp [List.length_append, hid, ha, hb, h64, h16]) hfnl
  have hdrop : ([1] ++ (idB ++ (u32a ++ (u32b ++ (u64 ++ (u16 ++ (fnb ++ (pad ++ p)))))))).drop
      HEADER_SIZE = p :=
    drop_eq_of_parts _ ([1] ++ (idB ++ (u32a ++ (u32b ++ (u64 ++ (u16 ++ (fnb ++ pad))))))) p
      HEADER_SIZE (by simp [List.append_assoc])
      (by
        simp [List.length_append, hid, ha, hb, h64, h16, HEADER_SIZE]
        omega)
  have hlen : HEADER_SIZE
      < ([1] ++ (idB ++ (u32a ++ (u32b ++ (u64 ++ (u16 ++ (fnb ++ (pad ++ p)))))))).length := by
    have hppos : 0 < p.length := List.length_pos.mpr hp
    simp [List.length_append, hid, ha, hb, h64, h16, HEADER_SIZE]
    omega
  unfold decodeBinaryMessage
  simp only [hr0, hr1, hr37, hr41, hr45, hr53, hr55, Option.some_bind, List.headD_cons,
    show ((1:Nat) = 1) = True from by simp, show ((1:Nat) = 2) = False from by simp,
    show ((1:Nat) = 0) = False from by simp, show ((1:Nat) = 3) = False from by simp,
    or_true, true_or, false_or, or_false, true_and, and_true, if_true, if_false,
    eq_true hlen, hdrop]

theorem decode_ack (idB u32a rest : List Nat)
    (hid : idB.length = 36) (ha : u32a.length = 4) :
    decodeBinaryMessage ([2] ++ (idB ++ (u32a ++ rest)))
      = some { type := 2
               fileId := (utf8Decode idB).filter fun c => decide (c ≠ 0)
               chunkIndex := some (leVal u32a) } := by
  have hr0 : readBytes ([2] ++ (idB ++ (u32a ++ rest))) 0 1 = some [2] :=
    readBytes_eq_of_parts _ [] [2] (idB ++ (u32a ++ rest)) 0 1 rfl rfl rfl
  have hr1 : readBytes ([2] ++ (idB ++ (u32a ++ rest))) 1 36 = some idB :=
    readBytes_eq_of_parts _ [2] idB (u32a ++ rest) 1 36 rfl rfl hid.symm
  have hr37 : readBytes ([2] ++ (idB ++ (u32a ++ rest))) 37 4 = some u32a :=
    readBytes_eq_of_parts _ ([2] ++ idB) u32a rest 37 4
      (by simp [List.append_assoc]) (by simp [List.length_append, hid]) ha.symm
  unfold decodeBinaryMessage
  simp only [hr0, hr1, hr37, Option.some_bind, List.headD_cons]
  norm_num

/-! ## The round-trip theorem (C1) -/

/-- Well-formed `FileStart`: the fields `sendFileInChunks` sets, in range
(`fileSize` below 2^53 as the spec requires, name of at most 201 ASCII
characters so that `Number`/UTF-8 conversions are exact). -/
abbrev wfStart (m : BinaryMessage) : Prop :=
  m.type = 0 ∧ m.chunkIndex = none ∧ m.payload = none ∧ m.fileHash = none ∧
  m.totalChunks.isSome = true ∧ m.totalChunks.getD 0 < 4294967296 ∧
  m.fileSize.isSome = true ∧ m.fileSize.getD 0 < 9007199254740992 ∧
  m.fileName.isSome = true ∧ (m.fileName.getD []).length ≤ 201 ∧
  ∀ c ∈ m.fileName.getD [], c < 128

/-- Well-formed `FileChunk`: as `wfStart` plus an index and a nonempty
payload. -/
abbrev wfChunk (m : BinaryMessage) : Prop :=
  m.type = 1 ∧ m.fileHash = none ∧
  m.chunkIndex.isSome = true ∧ m.chunkIndex.getD 0 < 4294967296 ∧
  m.totalChunks.isSome = true ∧ m.totalChunks.getD 0 < 4294967296 ∧
  m.fileSize.isSome = true ∧ m.fileSize.getD 0 < 9007199254740992 ∧
  m.fileName.isSome = true ∧ (m.fileName.getD []).length ≤ 201 ∧
  (∀ c ∈ m.fileName.getD [], c < 128) ∧
  m.payload.isSome = true ∧ m.payload.getD [] ≠ []

/-- Well-formed `ChunkAck`: type 2 with just an index. -/
abbrev wfAck (m : BinaryMessage) : Prop :=
  m.type = 2 ∧ m.chunkIndex.isSome = true ∧ m.chunkIndex.getD 0 < 4294967296 ∧
  m.totalChunks = none ∧ m.fileSize = none ∧ m.fileName = none ∧ m.payload = none ∧
  m.fileHash = none

/-- Well-formed wire message: a fileId of at most 36 non-NUL ASCII
characters (as the generated ids are) and one of the three kinds the
protocol encodes and decodes losslessly. -/
abbrev wfWireMessage (m : BinaryMessage) : Prop :=
  (∀ c ∈ m.fileId, 0 < c ∧ c < 128) ∧ m.fileId.length ≤ 36 ∧
  (wfStart m ∨ wfChunk m ∨ wfAck m)

/-- C1 amended: `decodeBinaryMessage (encodeBinaryMessage m) = m` for every
well-formed `FileStart`, `FileChunk` (nonempty payload) and `ChunkAck`,
including boundary values: maximum-length (201-character) fileName,
`fileSize` near 2^53−1, `chunkIndex` 0 and `totalChunks − 1`.  (The claim's
remaining boundary cases fail: a zero-length payload is dropped, and
`FileComplete` cannot round-trip at all — see the counterexample.) -/
theorem encode_decode_roundTrip (m : BinaryMessage) (h : wfWireMessage m) :
    (encodeBinaryMessage m).bind decodeBinaryMessage = some m := by
  obtain ⟨hida, hidlen, hcase⟩ := h
  have hascii : ∀ c ∈ m.fileId, c < 128 := fun c hc => (hida c hc).2
  have hidBlen : (utf8EncodeStr (padEndChar m.fileId 36 0)).length = 36 :=
    padEnd_encode_length m.fileId hascii hidlen
  have hidDec : (utf8Decode (utf8EncodeStr (padEndChar m.fileId 36 0))).filter
      (fun c => decide (c ≠ 0)) = m.fileId := by
    rw [padEnd_encode m.fileId hascii hidlen, utf8Decode_ascii, filter_pad_id]
    · exact fun c hc => Nat.pos_iff_ne_zero.mp (hida c hc).1
    · intro c hc
      rcases List.mem_append.mp hc with hc | hc
      · exact hascii c hc
      · rw [List.eq_of_mem_replicate hc]
        omega
  obtain ⟨ty, fid, ciF, tcF, fsF, nmF, pF, hF⟩ := m
  simp only at hida hascii hidlen hidBlen hidDec hcase
  rcases hcase with hs | hck | hak
  · obtain ⟨htype, hciN, hpN, hhN, htcS, htcB, hfsS, hfsB, hnmS, hnmLen, hnmAscii⟩ := hs
    simp only at htype hciN hpN hhN htcS htcB hfsS hfsB hnmS hnmLen hnmAscii
    obtain ⟨tc, htc⟩ := Option.isSome_iff_exists.mp htcS
    obtain ⟨fs, hfs⟩ := Option.isSome_iff_exists.mp hfsS
    obtain ⟨nm, hnm⟩ := Option.isSome_iff_exists.mp hnmS
    subst htype hciN hpN hhN htc hfs hnm
    simp only [Option.getD_some] at htcB hfsB hnmLen hnmAscii
    have hnmtake : nm.take MAX_FILENAME_LENGTH = nm :=
      List.take_of_length_le (by unfold MAX_FILENAME_LENGTH; omega)
    have hfnb : utf8EncodeStr (nm.take MAX_FILENAME_LENGTH) = nm := by
      rw [hnmtake, utf8EncodeStr_ascii nm hnmAscii]
    have hfnbLen : (utf8EncodeStr (nm.take MAX_FILENAME_LENGTH)).length
        ≤ MAX_FILENAME_LENGTH := by
      rw [hfnb]
      unfold MAX_FILENAME_LENGTH
      omega
    have hfnl : min (leVal (u16le (utf8EncodeStr (nm.take MAX_FILENAME_LENGTH)).length))
        MAX_FILENAME_LENGTH = (utf8EncodeStr (nm.take MAX_FILENAME_LENGTH)).length := by
      rw [leVal_u16le]
      unfold MAX_FILENAME_LENGTH at hfnbLen ⊢
      omega
    show (encodeBinaryMessage (startMsg fid nm tc fs)).bind decodeBinaryMessage
        = some (startMsg fid nm tc fs)
    rw [encode_start fid nm tc fs hidBlen hfnbLen, Option.some_bind,
      decode_start (utf8EncodeStr (padEndChar fid 36 0)) (u32le 0) (u32le tc)
        (u64le fs) (u16le (utf8EncodeStr (nm.take MAX_FILENAME_LENGTH)).length)
        (utf8EncodeStr (nm.take MAX_FILENAME_LENGTH))
        (List.replicate (MAX_FILENAME_LENGTH
          - (utf8EncodeStr (nm.take MAX_FILENAME_LENGTH)).length) 0)
        hidBlen (u32le_length 0) (u32le_length tc) (u64le_length fs)
        (u16le_length _) hfnl]
    rw [hidDec, leVal_u32le, leVal_u64le, Nat.mod_eq_of_lt htcB,
      Nat.mod_eq_of_lt (show fs < 18446744073709551616 by omega), hfnb,
      utf8Decode_ascii nm hnmAscii]
    rfl
  · obtain ⟨htype, hhN, hciS, hciB, htcS, htcB, hfsS, hfsB, hnmS, hnmLen, hnmAscii,
      hpS, hpNe⟩ := hck
    simp only at htype hhN hciS hciB htcS htcB hfsS hfsB hnmS hnmLen hnmAscii hpS hpNe
    obtain ⟨ci, hci⟩ := Option.isSome_iff_exists.mp hciS
    obtain ⟨tc, htc⟩ := Option.isSome_iff_exists.mp htcS
    obtain ⟨fs, hfs⟩ := Option.isSome_iff_exists.mp hfsS
    obtain ⟨nm, hnm⟩ := Option.isSome_iff_exists.mp hnmS
    obtain ⟨p, hp⟩ := Option.isSome_iff_exists.mp hpS
    subst htype hhN hci htc hfs hnm hp
    simp only [Option.getD_some] at hciB htcB hfsB hnmLen hnmAscii hpNe
    have hnmtake : nm.take MAX_FILENAME_LENGTH = nm :=
      List.take_of_length_le (by unfold MAX_FILENAME_LENGTH; omega)
    have hfnb : utf8EncodeStr (nm.take MAX_FILENAME_LENGTH) = nm := by
      rw [hnmtake, utf8EncodeStr_ascii nm hnmAscii]
    have hfnbLen : (utf8EncodeStr (nm.take MAX_FILENAME_LENGTH)).length
        ≤ MAX_FILENAME_LENGTH := by
      rw [hfnb]
      unfold MAX_FILENAME_LENGTH
      omega
    have hfnl : min (leVal (u16le (utf8EncodeStr (nm.take MAX_FILENAME_LENGTH)).length))
        MAX_FILENAME_LENGTH = (utf8EncodeStr (nm.take MAX_FILENAME_LENGTH)).length := by
      rw [leVal_u16le]
      unfold MAX_FILENAME_LENGTH at hfnbLen ⊢
      omega
    have hpadlen : (utf8EncodeStr (nm.take MAX_FILENAME_LENGTH)).length
        + (List.replicate (MAX_FILENAME_LENGTH
            - (utf8EncodeStr (nm.take MAX_FILENAME_LENGTH)).length) (0:Nat)).length
        = 201 := by
      rw [List.length_replicate]
      unfold MAX_FILENAME_LENGTH at hfnbLen ⊢
      omega
    show (encodeBinaryMessage (chunkMsg fid nm ci tc fs p)).bind decodeBinaryMessage
        = some (chunkMsg fid nm ci tc fs p)
    rw [encode_chunk fid nm ci tc fs p hidBlen hfnbLen, Option.some_bind,
      decode_chunk (utf8EncodeStr (padEndChar fid 36 0)) (u32le ci) (u32le tc)
        (u64le fs) (u16le (utf8EncodeStr (nm.take MAX_FILENAME_LENGTH)).length)
        (utf8EncodeStr (nm.take MAX_FILENAME_LENGTH))
        (List.replicate (MAX_FILENAME_LENGTH
          - (utf8EncodeStr (nm.take MAX_FILENAME_LENGTH)).length) 0) p
        hidBlen (u32le_length ci) (u32le_length tc) (u64le_length fs)
        (u16le_length _) hfnl hpadlen hpNe]
    rw [hidDec, leVal_u32le, leVal_u32le, leVal_u64le, Nat.mod_eq_of_lt hciB,
      Nat.mod_eq_of_lt htcB,
      Nat.mod_eq_of_lt (show fs < 18446744073709551616 by omega), hfnb,
      utf8Decode_ascii nm hnmAscii]
    rfl
  · obtain ⟨htype, hciS, hciB, htcN, hfsN, hnmN, hpN, hhN⟩ := hak
    simp only at htype hciS hciB htcN hfsN hnmN hpN hhN
    obtain ⟨ci, hci⟩ := Option.isSome_iff_exists.mp hciS
    subst htype htcN hfsN hnmN hpN hhN hci
    simp only [Option.getD_some] at hciB
    show (encodeBinaryMessage (ackMsg fid ci)).bind decodeBinaryMessage
        = some (ackMsg fid ci)
    rw [encode_ack fid ci hidBlen, Option.some_bind,
      decode_ack (utf8EncodeStr (padEndChar fid 36 0)) (u32le ci)
        (List.replicate 215 0) hidBlen (u32le_length ci)]
    rw [hidDec, leVal_u32le, Nat.mod_eq_of_lt hciB]
    rfl

/-- A `FileComplete` message exactly as `sendFileInChunks` sends it. -/
def cCompleteMsg : BinaryMessage :=
  { type := 3
    fileId := [102]
    fileName := some [97] }

/-- A `FileComplete` carrying an integrity hash. -/
def cCompleteHashMsg : BinaryMessage :=
  { type := 3
    fileId := [102]
    fileHash := some [104] }

/-- Counterexample to C1 as stated: (1) a `FileChunk` with a zero-length
payload does not round-trip — the decoded message has no payload field;
(2) a `FileComplete` header cannot be decoded at all (reading the 64-byte
hash at offset 256 of the 256-byte header throws, modelled as `none`);
(3) encoding a `FileComplete` carrying an integrity hash throws (the hash
bytes are written at offset 256, past the end of the header buffer). -/
theorem encode_decode_roundTrip_counterexample :
    (encodeBinaryMessage emptyPayloadChunk).bind decodeBinaryMessage
        ≠ some emptyPayloadChunk ∧
      (encodeBinaryMessage cCompleteMsg).bind decodeBinaryMessage = none ∧
      encodeBinaryMessage cCompleteHashMsg = none := by
  decide

/-- Witness for the amended C1 at a concrete `FileChunk`. -/
theorem encode_decode_roundTrip_witness :
    wfWireMessage (chunkMsg [102] [97] 0 1 5 [9]) ∧
      (encodeBinaryMessage (chunkMsg [102] [97] 0 1 5 [9])).bind decodeBinaryMessage
        = some (chunkMsg [102] [97] 0 1 5 [9]) :=
  ⟨by decide, encode_decode_roundTrip _ (by decide)⟩

/-! ## Decode failure behaviour (C2) -/

/-- C2 amended: `decodeBinaryMessage` has no error-value path at all.  On a
buffer too short for the fixed header reads (fewer than 37 bytes) it throws
a `RangeError` (modelled as `none`), caught only by `handleIncomingMessage`'s
try/catch; an unrecognised type tag is NOT rejected — the decoder returns an
ordinary message carrying just the tag and fileId, which
`handleIncomingMessage` silently ignores. -/
theorem decode_failure_behavior (data : List Nat) :
    (data.length < 37 → decodeBinaryMessage data = none) ∧
    (37 ≤ data.length → data.headD 0 ≠ 0 → data.headD 0 ≠ 1 → data.headD 0 ≠ 2 →
      data.headD 0 ≠ 3 →
      decodeBinaryMessage data = some
        { type := data.headD 0
          fileId := (utf8Decode ((data.drop 1).take 36)).filter fun c => decide (c ≠ 0) }) := by
  constructor
  · intro hlen
    unfold decodeBinaryMessage readBytes
    by_cases h1 : 0 + 1 ≤ data.length
    · simp only [if_pos h1, Option.some_bind,
        if_neg (show ¬(1 + 36 ≤ data.length) from by omega)]
      rfl
    · rw [if_neg h1]
      rfl
  · intro hlen h0 h1 h2 h3
    have hhead : ((data.drop 0).take 1).headD 0 = data.headD 0 := by
      rw [List.drop_zero]
      cases data with
      | nil => rfl
      | cons a t => rfl
    have hc1 : ¬(data.headD 0 = 1 ∨ data.headD 0 = 2) := by
      rintro (h | h)
      · exact h1 h
      · exact h2 h
    have hc2 : ¬(data.headD 0 = 0 ∨ data.headD 0 = 1) := by
      rintro (h | h)
      · exact h0 h
      · exact h1 h
    have hc4 : ¬(data.headD 0 = 1 ∧ HEADER_SIZE < data.length) := fun hc => h1 hc.1
    unfold decodeBinaryMessage readBytes
    simp only [if_pos (show 0 + 1 ≤ data.length from by omega), Option.some_bind,
      if_pos (show 1 + 36 ≤ data.length from by omega), Option.some_bind, hhead,
      if_neg hc1, if_neg hc2, if_neg h3, if_neg hc4, Option.some_bind]

/-- Counterexample to C2 as stated: (1) a 37-byte buffer with the
unrecognised tag 7 decodes successfully into an ordinary message — no
`DecodeError` is returned; (2) a 41-byte `ChunkAck` buffer, far shorter
than `HEADER_SIZE = 256`, also decodes successfully; (3) the empty buffer
makes the decoder throw (`none`), rather than return an error value. -/
theorem decode_failure_counterexample :
    decodeBinaryMessage (7 :: List.replicate 36 0) = some { type := 7, fileId := [] } ∧
      decodeBinaryMessage (2 :: List.replicate 40 0)
        = some { type := 2, fileId := [], chunkIndex := some 0 } ∧
      decodeBinaryMessage [] = none := by
  decide

/-- Witness for the amended C2 at concrete buffers. -/
theorem decode_failure_behavior_witness :
    decodeBinaryMessage [5] = none ∧
      decodeBinaryMessage (9 :: List.replicate 36 0) = some { type := 9, fileId := [] } :=
  ⟨(decode_failure_behavior [5]).1 (by decide),
    ((decode_failure_behavior (9 :: List.replicate 36 0)).2 (by decide) (by decide)
      (by decide) (by decide) (by decide)).trans (by decide)⟩

/-! ## fileName truncation (C10) -/

/-- C10 amended: for a `FileStart` or `FileChunk` whose fileName is ASCII,
`encodeBinaryMessage` truncates the name to its first 201 characters
(`MAX_FILENAME_LENGTH`) and the decode of the encode returns exactly that
truncation — names of at most 201 characters are preserved unchanged,
longer ASCII names are silently cut.  (For non-ASCII names whose truncation
exceeds 201 UTF-8 bytes, encoding throws instead — see the
counterexample.) -/
theorem encode_truncates_fileName (fid nm : List Nat) (tc fs ci : Nat) (p : List Nat)
    (hida : ∀ c ∈ fid, c < 128) (hidlen : fid.length ≤ 36)
    (hnm : ∀ c ∈ nm, c < 128) (hp : p ≠ []) :
    ((encodeBinaryMessage (startMsg fid nm tc fs)).bind decodeBinaryMessage).map
        (fun m => m.fileName) = some (some (nm.take MAX_FILENAME_LENGTH)) ∧
    ((encodeBinaryMessage (chunkMsg fid nm ci tc fs p)).bind decodeBinaryMessage).map
        (fun m => m.fileName) = some (some (nm.take MAX_FILENAME_LENGTH)) := by
  have hidBlen : (utf8EncodeStr (padEndChar fid 36 0)).length = 36 :=
    padEnd_encode_length fid hida hidlen
  have hasciiTake : ∀ c ∈ nm.take MAX_FILENAME_LENGTH, c < 128 :=
    fun c hc => hnm c (List.mem_of_mem_take hc)
  have hfnb : utf8EncodeStr (nm.take MAX_FILENAME_LENGTH) = nm.take MAX_FILENAME_LENGTH :=
    utf8EncodeStr_ascii _ hasciiTake
  have hfnbLen : (utf8EncodeStr (nm.take MAX_FILENAME_LENGTH)).length
      ≤ MAX_FILENAME_LENGTH := by
    rw [hfnb, List.length_take]
    omega
  have hfnl : min (leVal (u16le (utf8EncodeStr (nm.take MAX_FILENAME_LENGTH)).length))
      MAX_FILENAME_LENGTH = (utf8EncodeStr (nm.take MAX_FILENAME_LENGTH)).length := by
    rw [leVal_u16le]
    unfold MAX_FILENAME_LENGTH at hfnbLen ⊢
    omega
  have hpadlen : (utf8EncodeStr (nm.take MAX_FILENAME_LENGTH)).length
      + (List.replicate (MAX_FILENAME_LENGTH
          - (utf8EncodeStr (nm.take MAX_FILENAME_LENGTH)).length) (0:Nat)).length
      = 201 := by
    rw [List.length_replicate]
    unfold MAX_FILENAME_LENGTH at hfnbLen ⊢
    omega
  constructor
  · rw [encode_start fid nm tc fs hidBlen hfnbLen, Option.some_bind,
      decode_start (utf8EncodeStr (padEndChar fid 36 0)) (u32le 0) (u32le tc)
        (u64le fs) (u16le (utf8EncodeStr (nm.take MAX_FILENAME_LENGTH)).length)
        (utf8EncodeStr (nm.take MAX_FILENAME_LENGTH))
        (List.replicate (MAX_FILENAME_LENGTH
          - (utf8EncodeStr (nm.take MAX_FILENAME_LENGTH)).length) 0)
        hidBlen (u32le_length 0) (u32le_length tc) (u64le_length fs)
        (u16le_length _) hfnl]
    rw [hfnb, utf8Decode_ascii _ hasciiTake]
    rfl
  · rw [encode_chunk fid nm ci tc fs p hidBlen hfnbLen, Option.some_bind,
      decode_chunk (utf8EncodeStr (padEndChar fid 36 0)) (u32le ci) (u32le tc)
        (u64le fs) (u16le (utf8EncodeStr (nm.take MAX_FILENAME_LENGTH)).length)
        (utf8EncodeStr (nm.take MAX_FILENAME_LENGTH))
        (List.replicate (MAX_FILENAME_LENGTH
          - (utf8EncodeStr (nm.take MAX_FILENAME_LENGTH)).length) 0) p
        hidBlen (u32le_length ci) (u32le_length tc) (u64le_length fs)
        (u16le_length _) hfnl hpadlen hp]
    rw [hfnb, utf8Decode_ascii _ hasciiTake]
    rfl

/-- A 202-character fileName of the 2-byte code point U+0100. -/
def cLongName : List Nat := List.replicate 202 256

/-- Counterexample to C10 as stated: for a fileName whose first 201
characters encode to more than 201 UTF-8 bytes (here 201 two-byte
characters, 402 bytes), the fileName write runs past offset 255 of the
256-byte header and encoding THROWS (`none`) — the name is not silently
cut, and decode∘encode produces no message at all. -/
theorem encode_fileName_counterexample :
    encodeBinaryMessage (startMsg [102] cLongName 1 1) = none ∧
      (encodeBinaryMessage (startMsg [102] cLongName 1 1)).bind decodeBinaryMessage
        = none := by
  decide

/-- Witness for the amended C10: a 202-character ASCII name is cut to 201. -/
theorem encode_truncates_fileName_witness :
    ((encodeBinaryMessage (startMsg [102] (List.replicate 202 97) 1 1)).bind
        decodeBinaryMessage).map (fun m => m.fileName)
      = some (some ((List.replicate 202 97).take MAX_FILENAME_LENGTH)) :=
  (encode_truncates_fileName [102] (List.replicate 202 97) 1 1 0 [9] (by decide)
    (by decide) (by decide) (by decide)).1

end FileTransfer
